import Mathlib

/-
  Verification of the Inventory Ledger & Variance Reconciliation Engine
  (material-audit backend).

  Shallow embedding notes:
  - All quantities are embedded as exact rationals (`ℚ`); the source works in
    arbitrary-precision decimals (`decimal.Decimal`).
  - Calendar dates are embedded as integers (`Day`), one unit per day, so that
    "the day after" is `d + 1` and date comparison is integer comparison.
    `Consumption.consumed_at` is a datetime filtered by
    `combine(start, time.min) <= t <= combine(end, time.max)`, which holds iff
    the date part of `t` lies in `[start, end]`; it is embedded by its date.
  - Database tables are embedded as lists of rows; SQLAlchemy's `.first()` on a
    filtered query is `List.find?` with the same predicate.
  - Each mutating endpoint runs inside one atomic transaction (spec section 6):
    a raised exception (`HTTPException`) means nothing is committed.
    Operations are embedded as `DB → Except ApiErr (α × DB)`; on `.error` the
    committed state is the unchanged input state.
-/

namespace MaterialAudit

abbrev Qty := ℚ

abbrev Day := ℤ

instance {ε α : Type} [DecidableEq ε] [DecidableEq α] : DecidableEq (Except ε α) := fun a b =>
  match a, b with
  | .ok x, .ok y =>
    if h : x = y then .isTrue (by rw [h]) else .isFalse (by simp [h])
  | .error x, .error y =>
    if h : x = y then .isTrue (by rw [h]) else .isFalse (by simp [h])
  | .ok _, .error _ => .isFalse (by simp)
  | .error _, .ok _ => .isFalse (by simp)

/-! ## Threshold resolver — src/backend/app/services/threshold_service.py -/

/-- A row of the `variance_thresholds` table
(src/backend/app/models/variance_threshold.py).  `contractor_id = none` is a
material-wide default row. -/
structure ThresholdRow where
  contractor_id : Option Nat
  material_id : Nat
  threshold_percentage : Qty
  is_active : Bool
deriving DecidableEq, Repr

/-- threshold_service.py line 20: `SYSTEM_DEFAULT_THRESHOLD = Decimal("2.0")`. -/
def SYSTEM_DEFAULT_THRESHOLD : Qty := 2

inductive ThresholdSource
  | contractor
  | material
  | system
deriving DecidableEq, Repr

structure ThresholdResult where
  threshold_percentage : Qty
  source : ThresholdSource
deriving DecidableEq, Repr

/-- Filter of the first query in `get_threshold_with_source` (lines 76-80):
contractor-specific active row. -/
def contractorRowMatch (cid mid : Nat) (r : ThresholdRow) : Bool :=
  r.contractor_id == some cid && r.material_id == mid && r.is_active

/-- Filter of the second query (lines 94-98): material-default active row
(`contractor_id IS NULL`). -/
def materialRowMatch (mid : Nat) (r : ThresholdRow) : Bool :=
  r.contractor_id == none && r.material_id == mid && r.is_active

/-- `get_threshold_with_source` (threshold_service.py lines 54-118). -/
def get_threshold_with_source (rows : List ThresholdRow) (cid mid : Nat) :
    ThresholdResult :=
  match rows.find? (contractorRowMatch cid mid) with
  | some r => ⟨r.threshold_percentage, .contractor⟩
  | none =>
    match rows.find? (materialRowMatch mid) with
    | some r => ⟨r.threshold_percentage, .material⟩
    | none => ⟨SYSTEM_DEFAULT_THRESHOLD, .system⟩

/-! ## Unit conversion resolver — src/backend/app/services/unit_conversion_service.py -/

/-- A row of the `unit_conversions` table
(src/backend/app/models/unit_conversion.py). -/
structure ConvRow where
  material_id : Nat
  from_unit : String
  to_unit : String
  conversion_factor : Qty
  is_active : Bool
deriving DecidableEq, Repr

/-- Python `str.lower()` restricted to the ASCII unit names used by the system
(structural implementation so that concrete instances evaluate). -/
def lowerStr (u : String) : String := ⟨u.data.map Char.toLower⟩

/-- Python `str.strip()`: remove leading and trailing whitespace. -/
def trimStr (u : String) : String :=
  ⟨((u.data.dropWhile Char.isWhitespace).reverse.dropWhile Char.isWhitespace).reverse⟩

/-- `unit.strip().lower()` — the normalization applied to unit names throughout
the service. -/
def normUnit (u : String) : String := lowerStr (trimStr u)

/-- The `ilike` filter of the conversion queries (lines 44-49 / 60-65): stored
row units are compared case-insensitively against the already-normalized query
units. -/
def convRowMatch (mid : Nat) (fn tn : String) (r : ConvRow) : Bool :=
  r.material_id == mid && lowerStr r.from_unit == fn && lowerStr r.to_unit == tn
    && r.is_active

/-- `get_conversion_factor` (unit_conversion_service.py lines 13-85). -/
def get_conversion_factor (table : List ConvRow) (mid : Nat)
    (from_unit to_unit : String) : Option Qty :=
  let fn := normUnit from_unit
  let tn := normUnit to_unit
  if fn = tn then some 1
  else
    match table.find? (convRowMatch mid fn tn) with
    | some r => some r.conversion_factor
    | none =>
      match table.find? (convRowMatch mid tn fn) with
      | some r =>
        if r.conversion_factor = 0 then none
        else some (1 / r.conversion_factor)
      | none => none

inductive ConvErr
  | negativeQuantity
  | noConversion
deriving DecidableEq, Repr

/-- `convert_quantity` (unit_conversion_service.py lines 88-172).  The
material lookup done only to choose between the 404 and 400 message bodies is
not value-relevant; both terminal failure branches surface as
`ConvErr.noConversion`. -/
def convert_quantity (table : List ConvRow) (mid : Nat) (qty : Qty)
    (from_unit to_unit : String) : Except ConvErr Qty :=
  if qty < 0 then .error .negativeQuantity
  else
    let fn := normUnit from_unit
    let tn := normUnit to_unit
    if fn = tn then .ok qty
    else
      match get_conversion_factor table mid from_unit to_unit with
      | some f => .ok (qty * f)
      | none => .error .noConversion

end MaterialAudit
namespace MaterialAudit

lemma find?_filter_not_self {α : Type} (p : α → Bool) (l : List α) :
    (l.filter (fun x => !p x)).find? p = none := by
  apply List.find?_eq_none.mpr
  intro x hx
  have := List.of_mem_filter hx
  simpa using this

lemma find?_filter_of_never {α : Type} (p q : α → Bool) (l : List α)
    (h : ∀ x, q x = true → p x = false) :
    (l.filter (fun x => !p x)).find? q = l.find? q := by
  induction l with
  | nil => rfl
  | cons a l ih =>
    by_cases hp : p a = true
    · have hq : q a = false := by
        cases hqa : q a
        · rfl
        · rw [h a hqa] at hp; exact absurd hp (by simp)
      simp [List.filter_cons, hp, List.find?_cons, hq, ih]
    · have hp' : p a = false := by simpa using hp
      simp only [List.filter_cons, hp', Bool.not_false, if_pos rfl]
      cases hqa : q a
      · simp [List.find?_cons, hqa, ih]
      · simp [List.find?_cons, hqa]

lemma materialRow_not_contractorRow (cid mid : Nat) (r : ThresholdRow)
    (h : materialRowMatch mid r = true) : contractorRowMatch cid mid r = false := by
  simp only [materialRowMatch, Bool.and_eq_true, beq_iff_eq] at h
  simp [contractorRowMatch, h.1.1]

/-- C6: threshold resolution precedence.  An active contractor-specific row
wins with source `contractor`; failing that, the active material-default row
wins with source `material`; failing that, the system constant 2.0 with source
`system`.  Removing the contractor-specific rows (filtering them out) yields
the material default, and removing the material rows as well yields the system
constant. -/
theorem threshold_precedence_cascade (rows : List ThresholdRow) (cid mid : Nat) :
    (∀ r, rows.find? (contractorRowMatch cid mid) = some r →
      get_threshold_with_source rows cid mid = ⟨r.threshold_percentage, .contractor⟩)
    ∧ (rows.find? (contractorRowMatch cid mid) = none →
        ∀ r, rows.find? (materialRowMatch mid) = some r →
          get_threshold_with_source rows cid mid = ⟨r.threshold_percentage, .material⟩)
    ∧ (rows.find? (contractorRowMatch cid mid) = none →
        rows.find? (materialRowMatch mid) = none →
          get_threshold_with_source rows cid mid = ⟨SYSTEM_DEFAULT_THRESHOLD, .system⟩)
    ∧ (∀ r, rows.find? (materialRowMatch mid) = some r →
        get_threshold_with_source
          (rows.filter (fun x => !(contractorRowMatch cid mid x))) cid mid
          = ⟨r.threshold_percentage, .material⟩)
    ∧ (get_threshold_with_source
        (rows.filter (fun x => !(contractorRowMatch cid mid x)
            && !(materialRowMatch mid x))) cid mid
        = ⟨SYSTEM_DEFAULT_THRESHOLD, .system⟩) := by
  refine ⟨?_, ?_, ?_, ?_, ?_⟩
  · intro r h
    simp [get_threshold_with_source, h]
  · intro hc r h
    simp [get_threshold_with_source, hc, h]
  · intro hc hm
    simp [get_threshold_with_source, hc, hm]
  · intro r h
    have hc := find?_filter_not_self (contractorRowMatch cid mid) rows
    have hm := find?_filter_of_never (contractorRowMatch cid mid)
      (materialRowMatch mid) rows (materialRow_not_contractorRow cid mid)
    simp [get_threshold_with_source, hc, hm, h]
  · have hc : (rows.filter (fun x => !(contractorRowMatch cid mid x)
        && !(materialRowMatch mid x))).find? (contractorRowMatch cid mid) = none := by
      apply List.find?_eq_none.mpr
      intro x hx
      have := List.of_mem_filter hx
      simp only [Bool.and_eq_true, Bool.not_eq_true'] at this
      simp [this.1]
    have hm : (rows.filter (fun x => !(contractorRowMatch cid mid x)
        && !(materialRowMatch mid x))).find? (materialRowMatch mid) = none := by
      apply List.find?_eq_none.mpr
      intro x hx
      have := List.of_mem_filter hx
      simp only [Bool.and_eq_true, Bool.not_eq_true'] at this
      simp [this.2]
    simp [get_threshold_with_source, hc, hm]

def demoThresholdRows : List ThresholdRow :=
  [⟨some 1, 1, 5, true⟩, ⟨none, 1, 3, true⟩]

/-- Witness for C6 at a concrete table: contractor row 5% wins; with the
contractor row removed the material default 3% wins; with both removed the
system constant 2% applies. -/
theorem threshold_precedence_cascade_witness :
    get_threshold_with_source demoThresholdRows 1 1 = ⟨5, .contractor⟩
    ∧ get_threshold_with_source
        (demoThresholdRows.filter (fun x => !(contractorRowMatch 1 1 x))) 1 1
        = ⟨3, .material⟩
    ∧ get_threshold_with_source
        (demoThresholdRows.filter (fun x => !(contractorRowMatch 1 1 x)
            && !(materialRowMatch 1 x))) 1 1
        = ⟨SYSTEM_DEFAULT_THRESHOLD, .system⟩ := by
  obtain ⟨h1, _, _, h4, h5⟩ := threshold_precedence_cascade demoThresholdRows 1 1
  refine ⟨h1 ⟨some 1, 1, 5, true⟩ ?_, h4 ⟨none, 1, 3, true⟩ ?_, h5⟩
  · simp [demoThresholdRows, List.find?, contractorRowMatch]
  · simp [demoThresholdRows, List.find?, contractorRowMatch, materialRowMatch]

end MaterialAudit
namespace MaterialAudit

def cexConvTable : List ConvRow :=
  [⟨1, "a", "b", 2, true⟩, ⟨1, "b", "a", 3, true⟩]

example : ((convert_quantity cexConvTable 1 1 "a" "b").bind
    (fun y => convert_quantity cexConvTable 1 y "b" "a")) = .ok 6 := by
  have hf : cexConvTable.find? (convRowMatch 1 (normUnit "a") (normUnit "b"))
      = some ⟨1, "a", "b", 2, true⟩ := by decide
  have hg : cexConvTable.find? (convRowMatch 1 (normUnit "b") (normUnit "a"))
      = some ⟨1, "b", "a", 3, true⟩ := by decide
  have hne : normUnit "a" ≠ normUnit "b" := by decide
  have hne' : normUnit "b" ≠ normUnit "a" := by decide
  have e1 : convert_quantity cexConvTable 1 1 "a" "b" = .ok 2 := by
    simp only [convert_quantity, get_conversion_factor, hf, if_neg hne]
    rw [if_neg (by norm_num)]
    norm_num
  rw [e1]
  show convert_quantity cexConvTable 1 2 "b" "a" = .ok 6
  simp only [convert_quantity, get_conversion_factor, hg, if_neg hne']
  rw [if_neg (by norm_num)]
  norm_num

end MaterialAudit
namespace MaterialAudit

lemma convert_same_unit (table : List ConvRow) (mid : Nat) (q : Qty) (A B : String)
    (hq : 0 ≤ q) (h : normUnit A = normUnit B) :
    convert_quantity table mid q A B = .ok q := by
  simp only [convert_quantity]
  rw [if_neg (not_lt.mpr hq), if_pos h]

lemma factor_same_unit (table : List ConvRow) (mid : Nat) (A B : String)
    (h : normUnit A = normUnit B) :
    get_conversion_factor table mid A B = some 1 := by
  simp only [get_conversion_factor]
  rw [if_pos h]

lemma convert_direct (table : List ConvRow) (mid : Nat) (q : Qty) (A B : String)
    (r : ConvRow) (hq : 0 ≤ q) (hne : normUnit A ≠ normUnit B)
    (hf : table.find? (convRowMatch mid (normUnit A) (normUnit B)) = some r) :
    convert_quantity table mid q A B = .ok (q * r.conversion_factor) := by
  simp only [convert_quantity, get_conversion_factor, hf, if_neg hne]
  rw [if_neg (not_lt.mpr hq)]

lemma convert_reverse (table : List ConvRow) (mid : Nat) (q : Qty) (A B : String)
    (r : ConvRow) (hq : 0 ≤ q) (hne : normUnit A ≠ normUnit B)
    (hd : table.find? (convRowMatch mid (normUnit A) (normUnit B)) = none)
    (hr : table.find? (convRowMatch mid (normUnit B) (normUnit A)) = some r)
    (hf0 : r.conversion_factor ≠ 0) :
    convert_quantity table mid q A B = .ok (q * (1 / r.conversion_factor)) := by
  simp only [convert_quantity, get_conversion_factor, hd, hr, if_neg hne, if_neg hf0]
  rw [if_neg (not_lt.mpr hq)]

/-- C9 (amended): round-trip conversion is exact when the unit pair has a
conversion row in exactly one direction (or the units are the same); same-unit
requests return the quantity unchanged with factor 1; a reverse-only row is
applied as the multiplicative inverse of its stored factor. -/
theorem roundtrip_conversion_amended (table : List ConvRow) (mid : Nat) (q : Qty)
    (A B : String) (hq : 0 ≤ q)
    (hpos : ∀ r ∈ table, 0 < r.conversion_factor)
    (hdir : normUnit A = normUnit B
      ∨ ((table.find? (convRowMatch mid (normUnit A) (normUnit B))).isSome
          ∧ table.find? (convRowMatch mid (normUnit B) (normUnit A)) = none)
      ∨ (table.find? (convRowMatch mid (normUnit A) (normUnit B)) = none
          ∧ (table.find? (convRowMatch mid (normUnit B) (normUnit A))).isSome)) :
    ((convert_quantity table mid q A B).bind
        (fun y => convert_quantity table mid y B A)) = .ok q
    ∧ (normUnit A = normUnit B →
        convert_quantity table mid q A B = .ok q
        ∧ get_conversion_factor table mid A B = some 1)
    ∧ (∀ r, normUnit A ≠ normUnit B →
        table.find? (convRowMatch mid (normUnit A) (normUnit B)) = none →
        table.find? (convRowMatch mid (normUnit B) (normUnit A)) = some r →
        get_conversion_factor table mid A B = some (1 / r.conversion_factor)) := by
  refine ⟨?_, fun h => ⟨convert_same_unit table mid q A B hq h,
      factor_same_unit table mid A B h⟩, ?_⟩
  · by_cases heq : normUnit A = normUnit B
    · rw [convert_same_unit table mid q A B hq heq]
      show convert_quantity table mid q B A = .ok q
      exact convert_same_unit table mid q B A hq heq.symm
    · rcases hdir with h | ⟨hs, hn⟩ | ⟨hn, hs⟩
      · exact absurd h heq
      · obtain ⟨r, hf⟩ := Option.isSome_iff_exists.mp hs
        have hrpos : 0 < r.conversion_factor :=
          hpos r (List.mem_of_find?_eq_some hf)
        rw [convert_direct table mid q A B r hq heq hf]
        show convert_quantity table mid (q * r.conversion_factor) B A = .ok q
        rw [convert_reverse table mid (q * r.conversion_factor) B A r
          (mul_nonneg hq hrpos.le) (Ne.symm heq) hn hf hrpos.ne']
        congr 1
        rw [mul_one_div, mul_div_assoc, div_self hrpos.ne', mul_one]
      · obtain ⟨r, hf⟩ := Option.isSome_iff_exists.mp hs
        have hrpos : 0 < r.conversion_factor :=
          hpos r (List.mem_of_find?_eq_some hf)
        rw [convert_reverse table mid q A B r hq heq hn hf hrpos.ne']
        show convert_quantity table mid (q * (1 / r.conversion_factor)) B A = .ok q
        rw [convert_direct table mid (q * (1 / r.conversion_factor)) B A r
          (mul_nonneg hq (by positivity)) (Ne.symm heq) hf]
        congr 1
        rw [mul_one_div, div_mul_cancel₀ _ hrpos.ne']
  · intro r hne hd hr
    have hrpos : 0 < r.conversion_factor := hpos r (List.mem_of_find?_eq_some hr)
    simp only [get_conversion_factor, hd, hr, if_neg hne, if_neg hrpos.ne']

def demoConvTable : List ConvRow := [⟨1, "kg", "g", 1000, true⟩]

/-- Witness for the amended C9: with a single stored row kg→g = 1000 the
g→kg→g round trip of 3 is exact. -/
theorem roundtrip_conversion_amended_witness :
    ((convert_quantity demoConvTable 1 3 "g" "kg").bind
        (fun y => convert_quantity demoConvTable 1 y "kg" "g")) = .ok 3 :=
  (roundtrip_conversion_amended demoConvTable 1 3 "g" "kg" (by norm_num)
    (by intro r hr
        simp only [demoConvTable, List.mem_singleton] at hr
        subst hr
        norm_num)
    (Or.inr (Or.inr ⟨by decide, by decide⟩))).1

/-- C9 counterexample: with active rows in BOTH directions (a→b factor 2,
b→a factor 3, both non-zero), the round trip multiplies 1 into 6 ≠ 1, so the
claim as stated fails. -/
theorem roundtrip_conversion_counterexample :
    (∀ r ∈ cexConvTable, 0 < r.conversion_factor)
    ∧ ((convert_quantity cexConvTable 1 1 "a" "b").bind
        (fun y => convert_quantity cexConvTable 1 y "b" "a")) = .ok 6
    ∧ (Except.ok (6 : Qty) ≠ (.ok (1 : Qty) : Except ConvErr Qty)) := by
  refine ⟨?_, ?_, by simp⟩
  · intro r hr
    simp only [cexConvTable, List.mem_cons, List.not_mem_nil, or_false] at hr
    rcases hr with h | h <;> (subst h; norm_num)
  · have hf : cexConvTable.find? (convRowMatch 1 (normUnit "a") (normUnit "b"))
        = some ⟨1, "a", "b", 2, true⟩ := by decide
    have hg : cexConvTable.find? (convRowMatch 1 (normUnit "b") (normUnit "a"))
        = some ⟨1, "b", "a", 3, true⟩ := by decide
    have hne : normUnit "a" ≠ normUnit "b" := by decide
    have e1 : convert_quantity cexConvTable 1 1 "a" "b" = .ok 2 := by
      rw [convert_direct cexConvTable 1 1 "a" "b" ⟨1, "a", "b", 2, true⟩
        (by norm_num) hne hf]
      norm_num
    rw [e1]
    show convert_quantity cexConvTable 1 2 "b" "a" = .ok 6
    rw [convert_direct cexConvTable 1 2 "b" "a" ⟨1, "b", "a", 3, true⟩
      (by norm_num) (Ne.symm hne) hg]
    norm_num

end MaterialAudit

/-! ## Expected-inventory calculator — src/backend/app/services/inventory_calculator.py -/

namespace MaterialAudit

/-- A line of the `inventory_check_lines` table joined with the fields of its
owning `inventory_checks` header that `_get_opening_balance` reads
(src/backend/app/models/inventory_check.py). -/
structure CheckLine where
  check_id : Nat
  contractor_id : Nat
  status : String
  check_date : Day
  material_id : Nat
  actual_quantity : Option Qty
deriving DecidableEq, Repr

/-- A row of `material_issuances`
(src/backend/app/models/material_issuance.py). -/
structure IssuanceRec where
  id : Nat
  warehouse_id : Nat
  contractor_id : Nat
  material_id : Nat
  quantity : Qty
  unit_of_measure : String
  quantity_in_base_unit : Qty
  base_unit : String
  issued_date : Day
deriving DecidableEq, Repr

/-- A row of `consumption` (src/backend/app/models/consumption.py); the
`consumed_at` datetime is embedded by its date component (see header note). -/
structure ConsumptionRec where
  contractor_id : Nat
  material_id : Nat
  quantity : Qty
  consumed_date : Day
deriving DecidableEq, Repr

/-- A row of `material_rejections`
(src/backend/app/models/material_rejection.py). -/
structure RejectionRec where
  contractor_id : Nat
  material_id : Nat
  quantity_rejected : Qty
  status : String
  rejection_date : Day
deriving DecidableEq, Repr

/-- `MaterialRejection.STATUS_RECEIVED_AT_WAREHOUSE`. -/
def STATUS_RECEIVED_AT_WAREHOUSE : String := "RECEIVED_AT_WAREHOUSE"

/-- `date(2000, 1, 1)` (inventory_calculator.py line 225), under the proleptic
Gregorian ordinal embedding of dates used throughout (`date.toordinal()`). -/
def epochFloor : Day := 730120

/-- The filter of the `_get_opening_balance` query (lines 203-208): resolved
check line of this contractor/material dated strictly before `as_of_date`. -/
def checkCandidate (cid mid : Nat) (asOf : Day) (l : CheckLine) : Bool :=
  l.contractor_id == cid && decide (l.status = "resolved") && l.material_id == mid
    && decide (l.check_date < asOf)

/-- `ORDER BY check_date DESC ... .first()`: the first line with maximal
check date (ties between equal dates are returned in table order, which the
database leaves unspecified; the embedding keeps the earlier row). -/
def pickMaxByDate : List CheckLine → Option CheckLine
  | [] => none
  | x :: xs =>
    match pickMaxByDate xs with
    | none => some x
    | some b => if x.check_date < b.check_date then some b else some x

/-- The query of `_get_opening_balance` (lines 203-208). -/
def mostRecentCheckLine (lines : List CheckLine) (cid mid : Nat) (asOf : Day) :
    Option CheckLine :=
  pickMaxByDate (lines.filter (checkCandidate cid mid asOf))

/-- `_get_opening_balance` (inventory_calculator.py lines 190-230); returns
(opening balance, window start, last check id). -/
def getOpeningBalance (lines : List CheckLine) (cid mid : Nat) (asOf : Day) :
    Qty × Day × Option Nat :=
  match mostRecentCheckLine lines cid mid asOf with
  | some l =>
    match l.actual_quantity with
    | some a => (a, l.check_date + 1, some l.check_id)
    | none => (0, epochFloor, none)
  | none => (0, epochFloor, none)

/-- `_get_total_issued` (lines 233-250): sum of `quantity_in_base_unit` over
issuances of the pair inside the window. -/
def getTotalIssued (issuances : List IssuanceRec) (cid mid : Nat)
    (startD endD : Day) : Qty :=
  ((issuances.filter (fun i => i.contractor_id == cid && i.material_id == mid
      && decide (startD ≤ i.issued_date) && decide (i.issued_date ≤ endD))).map
    (fun i => i.quantity_in_base_unit)).sum

/-- `_get_total_consumed` (lines 253-276). -/
def getTotalConsumed (consumptions : List ConsumptionRec) (cid mid : Nat)
    (startD endD : Day) : Qty :=
  ((consumptions.filter (fun c => c.contractor_id == cid && c.material_id == mid
      && decide (startD ≤ c.consumed_date) && decide (c.consumed_date ≤ endD))).map
    (fun c => c.quantity)).sum

/-- `_get_total_rejected` (lines 279-297): only rejections in status
RECEIVED_AT_WAREHOUSE count. -/
def getTotalRejected (rejections : List RejectionRec) (cid mid : Nat)
    (startD endD : Day) : Qty :=
  ((rejections.filter (fun r => r.contractor_id == cid && r.material_id == mid
      && decide (r.status = STATUS_RECEIVED_AT_WAREHOUSE)
      && decide (startD ≤ r.rejection_date) && decide (r.rejection_date ≤ endD))).map
    (fun r => r.quantity_rejected)).sum

/-- `InventoryCalculationResult` (inventory_calculator.py lines 31-64). -/
structure InventoryCalculationResult where
  expected : Qty
  opening_balance : Qty
  issued : Qty
  consumed : Qty
  rejected : Qty
  start_date : Day
  end_date : Day
  last_check_id : Option Nat
deriving DecidableEq, Repr

/-- The body of `calculate_expected_inventory_detailed` (lines 120-180):
steps 1-5 of the calculation, which are total over the embedded tables. -/
def calcExpectedCore (checkLines : List CheckLine) (issuances : List IssuanceRec)
    (consumptions : List ConsumptionRec) (rejections : List RejectionRec)
    (cid mid : Nat) (asOf : Day) : InventoryCalculationResult :=
  let ob := getOpeningBalance checkLines cid mid asOf
  let issued := getTotalIssued issuances cid mid ob.2.1 asOf
  let consumed := getTotalConsumed consumptions cid mid ob.2.1 asOf
  let rejected := getTotalRejected rejections cid mid ob.2.1 asOf
  { expected := ob.1 + issued - consumed - rejected
    opening_balance := ob.1
    issued := issued
    consumed := consumed
    rejected := rejected
    start_date := ob.2.1
    end_date := asOf
    last_check_id := ob.2.2 }

inductive CalcErr
  | calculationError
deriving DecidableEq, Repr

/-- `calculate_expected_inventory_detailed` (lines 99-187).  The
`try/except` wrapper turns any downstream database failure into a single
`InventoryCalculationError`.  Such failures are environmental (they come from
the persistence layer, not from the data); they are modelled by the explicit
fault set `faults`: the downstream fetch for a `(contractor, material)` pair in
`faults` raises, and the wrapper converts that into `CalcErr.calculationError`
exactly as lines 182-187 do. -/
def calculate_expected_inventory_detailed (checkLines : List CheckLine)
    (issuances : List IssuanceRec) (consumptions : List ConsumptionRec)
    (rejections : List RejectionRec) (faults : List (Nat × Nat))
    (cid mid : Nat) (asOf : Day) : Except CalcErr InventoryCalculationResult :=
  if (cid, mid) ∈ faults then .error .calculationError
  else .ok (calcExpectedCore checkLines issuances consumptions rejections cid mid asOf)

/-- `calculate_expected_inventory` (lines 67-96). -/
def calculate_expected_inventory (checkLines : List CheckLine)
    (issuances : List IssuanceRec) (consumptions : List ConsumptionRec)
    (rejections : List RejectionRec) (faults : List (Nat × Nat))
    (cid mid : Nat) (asOf : Day) : Except CalcErr Qty :=
  (calculate_expected_inventory_detailed checkLines issuances consumptions
    rejections faults cid mid asOf).map (fun r => r.expected)

end MaterialAudit

/-! ## Data model — src/backend/app/models/ -/

namespace MaterialAudit

structure Material where
  id : Nat
  code : String
  name : String
  unit : String
deriving DecidableEq, Repr

structure Contractor where
  id : Nat
  name : String
deriving DecidableEq, Repr

structure Warehouse where
  id : Nat
  name : String
  is_active : Bool
deriving DecidableEq, Repr

structure WarehouseInventoryRow where
  warehouse_id : Nat
  material_id : Nat
  current_quantity : Qty
  unit_of_measure : String
deriving DecidableEq, Repr

structure FinishedGoodsInventoryRow where
  warehouse_id : Nat
  finished_good_id : Nat
  current_quantity : Qty
  unit_of_measure : String
deriving DecidableEq, Repr

structure ContractorInventoryRow where
  contractor_id : Nat
  material_id : Nat
  quantity : Qty
deriving DecidableEq, Repr

/-- `Audit.ALLOWED_STATUSES` (models/audit.py): the four status strings. -/
inductive AuditStatus
  | in_progress
  | submitted
  | analyzed
  | closed
deriving DecidableEq, Repr

/-- A row of `audits` (models/audit.py).  The generated `audit_number` string
is embedded as the numeric tag it is generated from; its text format carries
no verified content. -/
structure AuditRec where
  id : Nat
  audit_number : Nat
  contractor_id : Nat
  audit_date : Day
  auditor_name : String
  audit_type : String
  status : AuditStatus
  notes : Option String
deriving DecidableEq, Repr

/-- A row of `audit_line_items` (models/audit_line_item.py). -/
structure AuditLineItem where
  id : Nat
  audit_id : Nat
  material_id : Nat
  physical_count : Option Qty
  unit_of_measure : String
  auditor_notes : Option String
  expected_quantity : Option Qty
  variance : Option Qty
  variance_percentage : Option Qty
  threshold_used : Option Qty
  is_anomaly : Option Bool
  anomaly_id : Option Nat
deriving DecidableEq, Repr

/-- A row of `anomalies` (models/anomaly.py), restricted to the columns the
verified flows read or write. -/
structure AnomalyRec where
  id : Nat
  contractor_id : Nat
  material_id : Nat
  expected_quantity : Qty
  actual_quantity : Qty
  variance : Qty
  variance_percent : Qty
  anomaly_type : String
  resolved : Bool
deriving DecidableEq, Repr

/-- A row of `inventory_adjustments` (models/inventory_adjustment.py),
restricted to the columns the verified flows write. -/
structure AdjustmentRec where
  contractor_id : Nat
  material_id : Nat
  audit_line_item_id : Option Nat
  quantity_before : Qty
  quantity_after : Qty
  adjustment_quantity : Qty
  unit_of_measure : String
deriving DecidableEq, Repr

/-- A row of `reconciliations` (models/reconciliation.py). -/
structure ReconciliationRec where
  id : Nat
  contractor_id : Nat
  reconciliation_date : Day
  status : String
deriving DecidableEq, Repr

/-- A row of `reconciliation_lines` (models/reconciliation_line.py). -/
structure ReconciliationLine where
  reconciliation_id : Nat
  material_id : Nat
  reported_quantity : Qty
  unit_of_measure : String
  contractor_notes : Option String
  system_quantity : Option Qty
  variance : Option Qty
  variance_percentage : Option Qty
  threshold_used : Option Qty
  is_anomaly : Bool
  anomaly_id : Option Nat
deriving DecidableEq, Repr

/-- A line of a stock transfer (models/stock_transfer.py): `material_id` is
read for material transfers, `finished_good_id` for finished-good transfers. -/
structure TransferLine where
  material_id : Nat
  finished_good_id : Nat
  quantity : Qty
  unit_of_measure : Option String
deriving DecidableEq, Repr

structure TransferRec where
  id : Nat
  source_warehouse_id : Nat
  destination_warehouse_id : Nat
  transfer_type : String
  status : String
  lines : List TransferLine
deriving DecidableEq, Repr

/-- The persistent store: one list per table of section 3 of the spec, plus
`today` (the clock read by `date.today()`) and `nextId` (the primary-key
generator). -/
structure DB where
  contractors : List Contractor
  materials : List Material
  warehouses : List Warehouse
  warehouse_inventory : List WarehouseInventoryRow
  fg_inventory : List FinishedGoodsInventoryRow
  contractor_inventory : List ContractorInventoryRow
  conversions : List ConvRow
  thresholds : List ThresholdRow
  check_lines : List CheckLine
  issuances : List IssuanceRec
  consumptions : List ConsumptionRec
  rejections : List RejectionRec
  audits : List AuditRec
  audit_line_items : List AuditLineItem
  anomalies : List AnomalyRec
  adjustments : List AdjustmentRec
  reconciliations : List ReconciliationRec
  reconciliation_lines : List ReconciliationLine
  transfers : List TransferRec
  today : Day
  nextId : Nat
deriving DecidableEq, Repr

/-- Error taxonomy of section 7 of the spec, as surfaced by the endpoints'
`HTTPException`s. -/
inductive ApiErr
  | notFound
  | invalidState
  | insufficientStock (available requested : Qty)
  | noConversion
  | noMaterialsToAudit
  | missingCounts (n : Nat)
  | badRequest
deriving DecidableEq, Repr

def findContractor (s : DB) (cid : Nat) : Option Contractor :=
  s.contractors.find? (fun c => c.id == cid)

def findMaterial (s : DB) (mid : Nat) : Option Material :=
  s.materials.find? (fun m => m.id == mid)

def findWarehouseInv (s : DB) (wid mid : Nat) : Option WarehouseInventoryRow :=
  s.warehouse_inventory.find? (fun r => r.warehouse_id == wid && r.material_id == mid)

def findFgInv (s : DB) (wid fid : Nat) : Option FinishedGoodsInventoryRow :=
  s.fg_inventory.find? (fun r => r.warehouse_id == wid && r.finished_good_id == fid)

def findContractorInv (s : DB) (cid mid : Nat) : Option ContractorInventoryRow :=
  s.contractor_inventory.find? (fun r => r.contractor_id == cid && r.material_id == mid)

/-- Sequential processing of a request list inside one transaction: the first
raised exception aborts the whole operation (structural form of the per-item
loops of the endpoints). -/
def foldE {α β : Type} (f : β → α → Except ApiErr β) : β → List α → Except ApiErr β
  | b, [] => .ok b
  | b, x :: xs =>
    match f b x with
    | .error e => .error e
    | .ok b2 => foldE f b2 xs

/-- In-place update of the first row matched by the query, as SQLAlchemy's
mutate-after-`.first()` does. -/
def updateFirst {α : Type} (p : α → Bool) (f : α → α) : List α → List α
  | [] => []
  | x :: xs => if p x then f x :: xs else x :: updateFirst p f xs

/-- Python truthiness coercion `Decimal(str(v)) if v else Decimal("0")` applied
to a nullable numeric column: both `None` and `0` yield `0`. -/
def pyDecOrZero (v : Option Qty) : Qty :=
  match v with
  | none => 0
  | some x => if x = 0 then 0 else x

end MaterialAudit

/-! ## Blind audit state machine — src/backend/app/api/v1/audits.py -/

namespace MaterialAudit

/-- `AuditStartRequest` (schemas/audit.py). -/
structure AuditStartRequest where
  contractor_id : Nat
  auditor_name : String
  audit_type : String
  notes : Option String
deriving DecidableEq, Repr

/-- `AuditMaterialForAuditor` (schemas/audit.py lines 35-47): the only line
shape the auditor-facing endpoints return — it has no expected-quantity,
variance, variance-percentage or threshold field. -/
structure AuditMaterialForAuditor where
  id : Nat
  material_id : Nat
  material_name : String
  material_code : String
  unit_of_measure : String
deriving DecidableEq, Repr

/-- `AuditForAuditor` (schemas/audit.py). -/
structure AuditForAuditor where
  id : Nat
  audit_number : Nat
  contractor_name : String
  audit_date : Day
  status : AuditStatus
  materials : List AuditMaterialForAuditor
deriving DecidableEq, Repr

/-- `PhysicalCountEntry` (schemas/audit.py). -/
structure PhysicalCountEntry where
  line_item_id : Nat
  physical_count : Qty
  auditor_notes : Option String
deriving DecidableEq, Repr

/-- `AuditSubmitRequest` (schemas/audit.py). -/
structure AuditSubmitRequest where
  counts : List PhysicalCountEntry
  final_notes : Option String
deriving DecidableEq, Repr

def buildAuditorMaterial (item : AuditLineItem) (material : Material) :
    AuditMaterialForAuditor :=
  { id := item.id
    material_id := material.id
    material_name := material.name
    material_code := material.code
    unit_of_measure := item.unit_of_measure }

/-- The inner loop of `start_audit` (audits.py lines 104-127): one line item
per inventory row, skipping rows whose material does not exist; accumulates
(next fresh id, created lines, auditor view rows). -/
def startLineStep (s : DB) (auditId : Nat)
    (acc : Nat × List AuditLineItem × List AuditMaterialForAuditor)
    (item : ContractorInventoryRow) :
    Nat × List AuditLineItem × List AuditMaterialForAuditor :=
  match findMaterial s item.material_id with
  | none => acc
  | some material =>
    let line : AuditLineItem :=
      { id := acc.1
        audit_id := auditId
        material_id := item.material_id
        physical_count := none
        unit_of_measure := material.unit
        auditor_notes := none
        expected_quantity := none
        variance := none
        variance_percentage := none
        threshold_used := none
        is_anomaly := none
        anomaly_id := none }
    (acc.1 + 1, acc.2.1 ++ [line],
      acc.2.2 ++ [buildAuditorMaterial line material])

/-- `start_audit` (audits.py lines 48-140). -/
def start_audit (s : DB) (req : AuditStartRequest) :
    Except ApiErr (AuditForAuditor × DB) :=
  match findContractor s req.contractor_id with
  | none => .error .notFound
  | some contractor =>
    match s.audits.find? (fun a => a.contractor_id == req.contractor_id
        && decide (a.status = AuditStatus.in_progress)) with
    | some _ => .error .invalidState
    | none =>
      let auditId := s.nextId
      let audit : AuditRec :=
        { id := auditId
          audit_number := auditId
          contractor_id := req.contractor_id
          audit_date := s.today
          auditor_name := req.auditor_name
          audit_type := req.audit_type
          status := .in_progress
          notes := req.notes }
      let inventory_items := s.contractor_inventory.filter
        (fun r => r.contractor_id == req.contractor_id && decide (0 < r.quantity))
      if inventory_items.isEmpty then .error .noMaterialsToAudit
      else
        let built := inventory_items.foldl (startLineStep s auditId)
          (s.nextId + 1, [], [])
        let s' : DB :=
          { s with
            audits := s.audits ++ [audit]
            audit_line_items := s.audit_line_items ++ built.2.1
            nextId := built.1 }
        .ok (⟨audit.id, audit.audit_number, contractor.name, audit.audit_date,
          audit.status, built.2.2⟩, s')

/-- `get_audit_for_auditor` (audits.py lines 143-190): the blind auditor
view.  Read-only. -/
def get_audit_for_auditor (s : DB) (aid : Nat) : Except ApiErr AuditForAuditor :=
  match s.audits.find? (fun a => a.id == aid) with
  | none => .error .notFound
  | some audit =>
    if audit.status = .in_progress then
      let contractorName :=
        match findContractor s audit.contractor_id with
        | some c => c.name
        | none => "Unknown"
      let mats := (s.audit_line_items.filter (fun l => l.audit_id == aid)).filterMap
        (fun item => (findMaterial s item.material_id).map (buildAuditorMaterial item))
      .ok ⟨audit.id, audit.audit_number, contractorName, audit.audit_date,
        audit.status, mats⟩
    else .error .invalidState

/-- One iteration of the count-update loops of `enter_counts` (lines 215-228)
and `submit_audit` (lines 261-274): find the line in this audit, overwrite its
physical count and auditor notes. -/
def applyCountEntry (aid : Nat) (s : DB) (e : PhysicalCountEntry) :
    Except ApiErr DB :=
  match s.audit_line_items.find? (fun l => l.id == e.line_item_id
      && l.audit_id == aid) with
  | none => .error .notFound
  | some _ =>
    let setCount := fun (l : AuditLineItem) =>
      { l with physical_count := some e.physical_count,
               auditor_notes := e.auditor_notes }
    let items := updateFirst
      (fun l => l.id == e.line_item_id && l.audit_id == aid) setCount
      s.audit_line_items
    .ok { s with audit_line_items := items }

/-- `enter_counts` (audits.py lines 193-235). -/
def enter_counts (s : DB) (aid : Nat) (counts : List PhysicalCountEntry) :
    Except ApiErr (AuditForAuditor × DB) :=
  match s.audits.find? (fun a => a.id == aid) with
  | none => .error .notFound
  | some audit =>
    if audit.status = .in_progress then
      match foldE (applyCountEntry aid) s counts with
      | .error e => .error e
      | .ok s1 =>
        match get_audit_for_auditor s1 aid with
        | .error e => .error e
        | .ok v => .ok (v, s1)
    else .error .invalidState

/-- `submit_audit` (audits.py lines 238-308). -/
def submit_audit (s : DB) (aid : Nat) (req : AuditSubmitRequest) :
    Except ApiErr (Unit × DB) :=
  match s.audits.find? (fun a => a.id == aid) with
  | none => .error .notFound
  | some audit =>
    if audit.status = .in_progress then
      match foldE (applyCountEntry aid) s req.counts with
      | .error e => .error e
      | .ok s1 =>
        let line_items := s1.audit_line_items.filter (fun l => l.audit_id == aid)
        let missing := (line_items.filter (fun l => l.physical_count.isNone)).length
        if missing ≠ 0 then .error (.missingCounts missing)
        else
          let audits := updateFirst (fun a => a.id == aid)
            (fun a => { a with status := .submitted }) s1.audits
          .ok ((), { s1 with audits := audits })
    else .error .invalidState

/-- The per-line body of the analysis loop of `analyze_audit` (audits.py lines
348-438): computes expected (a calculation failure is caught and silently
replaced by `0` — lines 354-363), threshold, variance, variance percentage,
the shortage-only anomaly flag, and optionally a fresh `Anomaly` row. -/
def analyzeLine (s : DB) (faults : List (Nat × Nat)) (cid : Nat) (adate : Day)
    (anomId : Nat) (item : AuditLineItem) : AuditLineItem × Option AnomalyRec :=
  let expected :=
    match calculate_expected_inventory s.check_lines s.issuances s.consumptions
        s.rejections faults cid item.material_id adate with
    | .ok v => v
    | .error _ => 0
  let threshold :=
    (get_threshold_with_source s.thresholds cid item.material_id).threshold_percentage
  let physical := pyDecOrZero item.physical_count
  let variance := physical - expected
  let variance_pct :=
    if expected ≠ 0 then variance / expected * 100
    else if physical = 0 then 0 else 100
  let isAnom : Bool := decide (variance < 0) && decide (|variance_pct| > threshold)
  let anomaly : Option AnomalyRec :=
    if isAnom then
      some { id := anomId
             contractor_id := cid
             material_id := item.material_id
             expected_quantity := expected
             actual_quantity := physical
             variance := variance
             variance_percent := variance_pct
             anomaly_type := "audit_shortage"
             resolved := false }
    else none
  ({ item with
      expected_quantity := some expected
      variance := some variance
      variance_percentage := some variance_pct
      threshold_used := some threshold
      is_anomaly := some isAnom
      anomaly_id := if isAnom then some anomId else item.anomaly_id }, anomaly)

/-- The analysis loop over the stored line items: lines of other audits pass
through untouched, lines whose material no longer exists are skipped
(`continue`, lines 349-351); accumulates (rewritten lines, created anomalies,
next fresh id). -/
def analyzeStep (s : DB) (faults : List (Nat × Nat)) (aid cid : Nat) (adate : Day)
    (acc : List AuditLineItem × List AnomalyRec × Nat) (item : AuditLineItem) :
    List AuditLineItem × List AnomalyRec × Nat :=
  if item.audit_id == aid then
    match findMaterial s item.material_id with
    | none => (acc.1 ++ [item], acc.2.1, acc.2.2)
    | some _ =>
      let r := analyzeLine s faults cid adate acc.2.2 item
      (acc.1 ++ [r.1], acc.2.1 ++ r.2.toList,
        acc.2.2 + (if r.2.isSome then 1 else 0))
  else (acc.1 ++ [item], acc.2.1, acc.2.2)

/-- `analyze_audit` (audits.py lines 315-466). -/
def analyze_audit (faults : List (Nat × Nat)) (s : DB) (aid : Nat) :
    Except ApiErr (Unit × DB) :=
  match s.audits.find? (fun a => a.id == aid) with
  | none => .error .notFound
  | some audit =>
    if audit.status = .submitted then
      let built := s.audit_line_items.foldl
        (analyzeStep s faults aid audit.contractor_id audit.audit_date)
        ([], [], s.nextId)
      .ok ((), { s with
        audit_line_items := built.1
        anomalies := s.anomalies ++ built.2.1
        audits := updateFirst (fun a => a.id == aid)
          (fun a => { a with status := .analyzed }) s.audits
        nextId := built.2.2 })
    else .error .invalidState

/-- The per-line body of the adjustment loop of `accept_counts` (audits.py
lines 683-737): skip lines without an inventory row and lines whose physical
count equals the live balance; otherwise record an `InventoryAdjustment` and
set the contractor balance to the physical count. -/
def acceptLine (cid : Nat) (s : DB) (item : AuditLineItem) : DB :=
  match findContractorInv s cid item.material_id with
  | none => s
  | some inventory =>
    let current_qty := inventory.quantity
    let physical_qty := pyDecOrZero item.physical_count
    if current_qty = physical_qty then s
    else
      let adjustment : AdjustmentRec :=
        { contractor_id := cid
          material_id := item.material_id
          audit_line_item_id := some item.id
          quantity_before := current_qty
          quantity_after := physical_qty
          adjustment_quantity := physical_qty - current_qty
          unit_of_measure := item.unit_of_measure }
      let inv := updateFirst
        (fun r => r.contractor_id == cid && r.material_id == item.material_id)
        (fun r => { r with quantity := physical_qty })
        s.contractor_inventory
      { s with
        adjustments := s.adjustments ++ [adjustment]
        contractor_inventory := inv }

/-- The anomaly-resolution loop of `accept_counts` (lines 739-745). -/
def resolveLineAnomaly (s : DB) (item : AuditLineItem) : DB :=
  match item.anomaly_id with
  | none => s
  | some k =>
    let anoms := s.anomalies.map
      (fun an => if an.id == k then { an with resolved := true } else an)
    { s with anomalies := anoms }

/-- `accept_counts` (audits.py lines 656-753). -/
def accept_counts (s : DB) (aid : Nat) : Except ApiErr (Unit × DB) :=
  match s.audits.find? (fun a => a.id == aid) with
  | none => .error .notFound
  | some audit =>
    if audit.status = .analyzed then
      let line_items := s.audit_line_items.filter (fun l => l.audit_id == aid)
      let s1 := line_items.foldl (acceptLine audit.contractor_id) s
      let s2 := line_items.foldl resolveLineAnomaly s1
      .ok ((), s2)
    else .error .invalidState

/-- `close_audit` (audits.py lines 810-839). -/
def close_audit (s : DB) (aid : Nat) : Except ApiErr (Unit × DB) :=
  match s.audits.find? (fun a => a.id == aid) with
  | none => .error .notFound
  | some audit =>
    if audit.status = .analyzed then
      let audits := updateFirst (fun a => a.id == aid)
        (fun a => { a with status := .closed }) s.audits
      .ok ((), { s with audits := audits })
    else .error .invalidState

end MaterialAudit

/-! ## Reconciliation state machine — src/backend/app/api/v1/reconciliations.py -/

namespace MaterialAudit

structure ReconItemRequest where
  material_id : Nat
  reported_quantity : Qty
  notes : Option String
deriving DecidableEq, Repr

structure ReconciliationSubmitRequest where
  contractor_id : Nat
  reconciliation_date : Day
  items : List ReconItemRequest
deriving DecidableEq, Repr

/-- `Decimal(str(inventory.quantity)) if inventory else Decimal(0)`
(reconciliations.py line 155): the live contractor balance, 0 when no row
exists. -/
def liveSystemQty (s : DB) (cid mid : Nat) : Qty :=
  match findContractorInv s cid mid with
  | some inv => inv.quantity
  | none => 0

/-- The per-item body of the submission loop of `submit_reconciliation`
(reconciliations.py lines 140-221): variance against the live balance,
threshold resolution, the both-directions anomaly test, optional `Anomaly`
creation, and the stored line. -/
def reconLine (s : DB) (cid reconId anomId : Nat) (item : ReconItemRequest)
    (material : Material) : ReconciliationLine × Option AnomalyRec :=
  let system_qty := liveSystemQty s cid item.material_id
  let reported_qty := item.reported_quantity
  let variance := reported_qty - system_qty
  let variance_pct :=
    if system_qty ≠ 0 then variance / system_qty * 100
    else if 0 < reported_qty then 100 else 0
  let threshold :=
    (get_threshold_with_source s.thresholds cid item.material_id).threshold_percentage
  let isAnom : Bool := decide (|variance_pct| > threshold)
  let anomaly : Option AnomalyRec :=
    if isAnom then
      some { id := anomId
             contractor_id := cid
             material_id := item.material_id
             expected_quantity := system_qty
             actual_quantity := reported_qty
             variance := variance
             variance_percent := variance_pct
             anomaly_type :=
               if variance < 0 then "reconciliation_shortage"
               else "reconciliation_excess"
             resolved := false }
    else none
  ({ reconciliation_id := reconId
     material_id := item.material_id
     reported_quantity := reported_qty
     unit_of_measure := material.unit
     contractor_notes := item.notes
     system_quantity := some system_qty
     variance := some variance
     variance_percentage := some variance_pct
     threshold_used := some threshold
     is_anomaly := isAnom
     anomaly_id := if isAnom then some anomId else none }, anomaly)

/-- The submission loop: each item's material must exist (404 otherwise,
lines 142-147); accumulates (lines, anomalies, next fresh id). -/
def reconItemStep (s : DB) (cid reconId : Nat)
    (acc : List ReconciliationLine × List AnomalyRec × Nat)
    (item : ReconItemRequest) :
    Except ApiErr (List ReconciliationLine × List AnomalyRec × Nat) :=
  match findMaterial s item.material_id with
  | none => .error .notFound
  | some material =>
    let r := reconLine s cid reconId acc.2.2 item material
    .ok (acc.1 ++ [r.1], acc.2.1 ++ r.2.toList,
      acc.2.2 + (if r.2.isSome then 1 else 0))

/-- `submit_reconciliation` (reconciliations.py lines 104-230). -/
def submit_reconciliation (s : DB) (req : ReconciliationSubmitRequest) :
    Except ApiErr (Unit × DB) :=
  match findContractor s req.contractor_id with
  | none => .error .notFound
  | some _ =>
    let reconId := s.nextId
    let recon : ReconciliationRec :=
      { id := reconId
        contractor_id := req.contractor_id
        reconciliation_date := req.reconciliation_date
        status := "SUBMITTED" }
    match foldE (reconItemStep s req.contractor_id reconId)
        ([], [], s.nextId + 1) req.items with
    | .error e => .error e
    | .ok built =>
      .ok ((), { s with
        reconciliations := s.reconciliations ++ [recon]
        reconciliation_lines := s.reconciliation_lines ++ built.1
        anomalies := s.anomalies ++ built.2.1
        nextId := built.2.2 })

end MaterialAudit

/-! ## Stock ledger mutator — issuances.py and stock_transfers.py -/

namespace MaterialAudit

structure IssuanceRequest where
  warehouse_id : Nat
  contractor_id : Nat
  material_id : Nat
  quantity : Qty
  unit_of_measure : String
  issued_date : Day
deriving DecidableEq, Repr

def convErrToApi : ConvErr → ApiErr
  | .negativeQuantity => .badRequest
  | .noConversion => .noConversion

/-- The validation-and-conversion prefix of `create_issuance` (issuances.py
lines 68-139): steps 1-6 up to (but not including) the sufficiency check. -/
structure IssuanceCtx where
  base_unit : String
  issuance_unit : String
  quantity_in_base_unit : Qty
  warehouse_inv : WarehouseInventoryRow
  warehouse_unit : String
  warehouse_qty_in_base : Qty
deriving DecidableEq, Repr

def issuanceContext (s : DB) (req : IssuanceRequest) : Except ApiErr IssuanceCtx :=
  match s.warehouses.find? (fun w => w.id == req.warehouse_id) with
  | none => .error .notFound
  | some warehouse =>
    if warehouse.is_active then
      match findContractor s req.contractor_id with
      | none => .error .notFound
      | some _ =>
        match findMaterial s req.material_id with
        | none => .error .notFound
        | some material =>
          let base_unit := normUnit material.unit
          let issuance_unit := normUnit req.unit_of_measure
          let qbRes : Except ApiErr Qty :=
            if issuance_unit = base_unit then .ok req.quantity
            else
              match get_conversion_factor s.conversions req.material_id
                  issuance_unit base_unit with
              | none => .error .noConversion
              | some _ =>
                (convert_quantity s.conversions req.material_id req.quantity
                  issuance_unit base_unit).mapError convErrToApi
          match qbRes with
          | .error e => .error e
          | .ok quantity_in_base_unit =>
            match findWarehouseInv s req.warehouse_id req.material_id with
            | none => .error .notFound
            | some warehouse_inv =>
              let warehouse_unit := normUnit warehouse_inv.unit_of_measure
              let wqRes : Except ApiErr Qty :=
                if warehouse_unit = base_unit then .ok warehouse_inv.current_quantity
                else
                  (convert_quantity s.conversions req.material_id
                    warehouse_inv.current_quantity warehouse_unit base_unit).mapError
                    convErrToApi
              match wqRes with
              | .error e => .error e
              | .ok warehouse_qty_in_base =>
                .ok { base_unit := base_unit
                      issuance_unit := issuance_unit
                      quantity_in_base_unit := quantity_in_base_unit
                      warehouse_inv := warehouse_inv
                      warehouse_unit := warehouse_unit
                      warehouse_qty_in_base := warehouse_qty_in_base }
    else .error .invalidState

/-- `create_issuance` (issuances.py lines 53-219). -/
def create_issuance (s : DB) (req : IssuanceRequest) : Except ApiErr (Unit × DB) :=
  match issuanceContext s req with
  | .error e => .error e
  | .ok ctx =>
    if ctx.warehouse_qty_in_base < ctx.quantity_in_base_unit then
      .error (.insufficientStock ctx.warehouse_inv.current_quantity req.quantity)
    else
      let dedRes : Except ApiErr Qty :=
        if ctx.warehouse_unit = ctx.base_unit then .ok ctx.quantity_in_base_unit
        else
          (convert_quantity s.conversions req.material_id
            ctx.quantity_in_base_unit ctx.base_unit ctx.warehouse_unit).mapError
            convErrToApi
      match dedRes with
      | .error e => .error e
      | .ok deduction_qty =>
        let winv := updateFirst
          (fun r => r.warehouse_id == req.warehouse_id
            && r.material_id == req.material_id)
          (fun r => { r with current_quantity := r.current_quantity - deduction_qty })
          s.warehouse_inventory
        let cinv :=
          match findContractorInv s req.contractor_id req.material_id with
          | some _ =>
            updateFirst
              (fun r => r.contractor_id == req.contractor_id
                && r.material_id == req.material_id)
              (fun r => { r with quantity := r.quantity + ctx.quantity_in_base_unit })
              s.contractor_inventory
          | none =>
            s.contractor_inventory ++
              [{ contractor_id := req.contractor_id
                 material_id := req.material_id
                 quantity := ctx.quantity_in_base_unit }]
        let issuance : IssuanceRec :=
          { id := s.nextId
            warehouse_id := req.warehouse_id
            contractor_id := req.contractor_id
            material_id := req.material_id
            quantity := req.quantity
            unit_of_measure := ctx.issuance_unit
            quantity_in_base_unit := ctx.quantity_in_base_unit
            base_unit := ctx.base_unit
            issued_date := req.issued_date }
        .ok ((), { s with
          warehouse_inventory := winv
          contractor_inventory := cinv
          issuances := s.issuances ++ [issuance]
          nextId := s.nextId + 1 })

/-- One line of the completion loop of `complete_stock_transfer`
(stock_transfers.py lines 275-330): check the source balance, deduct, add to
(or create) the destination balance.  The available quantity reported on
failure is 0 when no source row exists. -/
def transferLineStep (t : TransferRec) (s : DB) (line : TransferLine) :
    Except ApiErr DB :=
  if t.transfer_type = "material" then
    match findWarehouseInv s t.source_warehouse_id line.material_id with
    | none => .error (.insufficientStock 0 line.quantity)
    | some source_inv =>
      if source_inv.current_quantity < line.quantity then
        .error (.insufficientStock source_inv.current_quantity line.quantity)
      else
        let winv1 := updateFirst
          (fun r => r.warehouse_id == t.source_warehouse_id
            && r.material_id == line.material_id)
          (fun r => { r with current_quantity := r.current_quantity - line.quantity })
          s.warehouse_inventory
        let s1 := { s with warehouse_inventory := winv1 }
        match findWarehouseInv s1 t.destination_warehouse_id line.material_id with
        | some _ =>
          let winv2 := updateFirst
            (fun r => r.warehouse_id == t.destination_warehouse_id
              && r.material_id == line.material_id)
            (fun r => { r with current_quantity := r.current_quantity + line.quantity })
            s1.warehouse_inventory
          .ok { s1 with warehouse_inventory := winv2 }
        | none =>
          let newRow : WarehouseInventoryRow :=
            { warehouse_id := t.destination_warehouse_id
              material_id := line.material_id
              current_quantity := line.quantity
              unit_of_measure := line.unit_of_measure.getD source_inv.unit_of_measure }
          .ok { s1 with warehouse_inventory := s1.warehouse_inventory ++ [newRow] }
  else
    match findFgInv s t.source_warehouse_id line.finished_good_id with
    | none => .error (.insufficientStock 0 line.quantity)
    | some source_inv =>
      if source_inv.current_quantity < line.quantity then
        .error (.insufficientStock source_inv.current_quantity line.quantity)
      else
        let finv1 := updateFirst
          (fun r => r.warehouse_id == t.source_warehouse_id
            && r.finished_good_id == line.finished_good_id)
          (fun r => { r with current_quantity := r.current_quantity - line.quantity })
          s.fg_inventory
        let s1 := { s with fg_inventory := finv1 }
        match findFgInv s1 t.destination_warehouse_id line.finished_good_id with
        | some _ =>
          let finv2 := updateFirst
            (fun r => r.warehouse_id == t.destination_warehouse_id
              && r.finished_good_id == line.finished_good_id)
            (fun r => { r with current_quantity := r.current_quantity + line.quantity })
            s1.fg_inventory
          .ok { s1 with fg_inventory := finv2 }
        | none =>
          let newRow : FinishedGoodsInventoryRow :=
            { warehouse_id := t.destination_warehouse_id
              finished_good_id := line.finished_good_id
              current_quantity := line.quantity
              unit_of_measure := line.unit_of_measure.getD source_inv.unit_of_measure }
          .ok { s1 with fg_inventory := s1.fg_inventory ++ [newRow] }

/-- `complete_stock_transfer` (stock_transfers.py lines 253-347). -/
def complete_stock_transfer (s : DB) (tid : Nat) : Except ApiErr (Unit × DB) :=
  match s.transfers.find? (fun t => t.id == tid) with
  | none => .error .notFound
  | some t =>
    if t.status = "draft" ∨ t.status = "submitted" then
      match foldE (transferLineStep t) s t.lines with
      | .error e => .error e
      | .ok s1 =>
        let transfers := updateFirst (fun x => x.id == tid)
          (fun x => { x with status := "completed" }) s1.transfers
        .ok ((), { s1 with transfers := transfers })
    else .error .invalidState

/-! ## Operations and reachable states -/

/-- The embedded mutating (and auditor-view) operations. -/
inductive Op
  | start (req : AuditStartRequest)
  | view (aid : Nat)
  | enter (aid : Nat) (counts : List PhysicalCountEntry)
  | submitAudit (aid : Nat) (req : AuditSubmitRequest)
  | analyze (faults : List (Nat × Nat)) (aid : Nat)
  | accept (aid : Nat)
  | closeAudit (aid : Nat)
  | submitRecon (req : ReconciliationSubmitRequest)
  | issue (req : IssuanceRequest)
  | completeTransfer (tid : Nat)

/-- The committed state after running an operation: the new state on success,
the unchanged state when the operation raised (transaction rollback,
spec section 6). -/
def applyOp (s : DB) : Op → DB
  | .start req =>
    match start_audit s req with
    | .ok r => r.2
    | .error _ => s
  | .view _ => s
  | .enter aid counts =>
    match enter_counts s aid counts with
    | .ok r => r.2
    | .error _ => s
  | .submitAudit aid req =>
    match submit_audit s aid req with
    | .ok r => r.2
    | .error _ => s
  | .analyze faults aid =>
    match analyze_audit faults s aid with
    | .ok r => r.2
    | .error _ => s
  | .accept aid =>
    match accept_counts s aid with
    | .ok r => r.2
    | .error _ => s
  | .closeAudit aid =>
    match close_audit s aid with
    | .ok r => r.2
    | .error _ => s
  | .submitRecon req =>
    match submit_reconciliation s req with
    | .ok r => r.2
    | .error _ => s
  | .issue req =>
    match create_issuance s req with
    | .ok r => r.2
    | .error _ => s
  | .completeTransfer tid =>
    match complete_stock_transfer s tid with
    | .ok r => r.2
    | .error _ => s

/-- States reachable from a store with no audit data yet through the embedded
operations. -/
inductive Reachable : DB → Prop
  | init (s : DB) (h1 : s.audits = []) (h2 : s.audit_line_items = []) :
      Reachable s
  | step (s : DB) (op : Op) (h : Reachable s) : Reachable (applyOp s op)

end MaterialAudit

namespace MaterialAudit

/-- The analysis step flags a line anomalous exactly for beyond-threshold
shortages (audits.py lines 383-385). -/
lemma analyzeLine_anomaly_iff (s : DB) (faults : List (Nat × Nat)) (cid : Nat)
    (adate : Day) (anomId : Nat) (item : AuditLineItem) :
    (analyzeLine s faults cid adate anomId item).1.is_anomaly = some true ↔
      (∃ v p t, (analyzeLine s faults cid adate anomId item).1.variance = some v
        ∧ (analyzeLine s faults cid adate anomId item).1.variance_percentage = some p
        ∧ (analyzeLine s faults cid adate anomId item).1.threshold_used = some t
        ∧ v < 0 ∧ |p| > t) := by
  unfold analyzeLine
  dsimp only
  constructor
  · intro h
    simp only [Option.some.injEq, Bool.and_eq_true, decide_eq_true_eq] at h
    exact ⟨_, _, _, rfl, rfl, rfl, h.1, h.2⟩
  · rintro ⟨v, p, t, hv, hp, ht, h1, h2⟩
    simp only [Option.some.injEq] at hv hp ht
    subst hv; subst hp; subst ht
    simp only [Option.some.injEq, Bool.and_eq_true, decide_eq_true_eq]
    exact ⟨h1, h2⟩

/-- An `Anomaly` row is created by the analysis step iff the line is flagged
(audits.py lines 396-415). -/
lemma analyzeLine_anomaly_record_iff (s : DB) (faults : List (Nat × Nat))
    (cid : Nat) (adate : Day) (anomId : Nat) (item : AuditLineItem) :
    (analyzeLine s faults cid adate anomId item).2.isSome ↔
      (analyzeLine s faults cid adate anomId item).1.is_anomaly = some true := by
  unfold analyzeLine
  dsimp only
  by_cases h : (decide ((pyDecOrZero item.physical_count -
      match calculate_expected_inventory s.check_lines s.issuances s.consumptions
        s.rejections faults cid item.material_id adate with
      | Except.ok v => v
      | Except.error _ => 0) < 0) = true)
  · simp [h]
  · simp [h]

/-- A positive variance (excess) never flags and never creates an anomaly in
the audit flow, no matter the threshold. -/
lemma analyzeLine_excess_no_anomaly (s : DB) (faults : List (Nat × Nat))
    (cid : Nat) (adate : Day) (anomId : Nat) (item : AuditLineItem) (v : Qty)
    (hv : (analyzeLine s faults cid adate anomId item).1.variance = some v)
    (hpos : 0 < v) :
    (analyzeLine s faults cid adate anomId item).1.is_anomaly = some false
      ∧ (analyzeLine s faults cid adate anomId item).2 = none := by
  unfold analyzeLine at hv ⊢
  dsimp only at hv ⊢
  simp only [Option.some.injEq] at hv
  subst hv
  have hlt : ¬ ((pyDecOrZero item.physical_count -
      match calculate_expected_inventory s.check_lines s.issuances s.consumptions
        s.rejections faults cid item.material_id adate with
      | Except.ok v => v
      | Except.error _ => 0) < 0) := not_lt.mpr hpos.le
  simp [hlt]

/-- The reconciliation step flags a line anomalous for beyond-threshold
variance in either direction (reconciliations.py lines 173-174). -/
lemma reconLine_anomaly_iff (s : DB) (cid reconId anomId : Nat)
    (item : ReconItemRequest) (material : Material) :
    (reconLine s cid reconId anomId item material).1.is_anomaly = true ↔
      (∃ p t, (reconLine s cid reconId anomId item material).1.variance_percentage
          = some p
        ∧ (reconLine s cid reconId anomId item material).1.threshold_used = some t
        ∧ |p| > t) := by
  unfold reconLine
  dsimp only
  constructor
  · intro h
    simp only [decide_eq_true_eq] at h
    exact ⟨_, _, rfl, rfl, h⟩
  · rintro ⟨p, t, hp, ht, h⟩
    simp only [Option.some.injEq] at hp ht
    subst hp; subst ht
    simpa using h

lemma reconLine_anomaly_record_iff (s : DB) (cid reconId anomId : Nat)
    (item : ReconItemRequest) (material : Material) :
    (reconLine s cid reconId anomId item material).2.isSome ↔
      (reconLine s cid reconId anomId item material).1.is_anomaly = true := by
  unfold reconLine
  dsimp only
  by_cases h : (decide (|if liveSystemQty s cid item.material_id ≠ 0 then
      (item.reported_quantity - liveSystemQty s cid item.material_id) /
        liveSystemQty s cid item.material_id * 100
      else if 0 < item.reported_quantity then 100 else 0| >
      (get_threshold_with_source s.thresholds cid
        item.material_id).threshold_percentage) = true)
  · simp [h]
  · simp [h]

/-- A beyond-threshold excess DOES flag and raise an excess anomaly in the
reconciliation flow. -/
lemma reconLine_excess_anomaly (s : DB) (cid reconId anomId : Nat)
    (item : ReconItemRequest) (material : Material) (v p t : Qty)
    (hv : (reconLine s cid reconId anomId item material).1.variance = some v)
    (hp : (reconLine s cid reconId anomId item material).1.variance_percentage
        = some p)
    (ht : (reconLine s cid reconId anomId item material).1.threshold_used = some t)
    (hpos : 0 < v) (hbeyond : |p| > t) :
    (reconLine s cid reconId anomId item material).1.is_anomaly = true
      ∧ ∃ an, (reconLine s cid reconId anomId item material).2 = some an
        ∧ an.anomaly_type = "reconciliation_excess" := by
  unfold reconLine at hv hp ht ⊢
  dsimp only at hv hp ht ⊢
  simp only [Option.some.injEq] at hv hp ht
  subst hv; subst hp; subst ht
  have h1 : ¬ (item.reported_quantity - liveSystemQty s cid item.material_id < 0) :=
    not_lt.mpr hpos.le
  have hA := decide_eq_true hbeyond
  simp only [hA, if_true, if_neg h1]
  exact ⟨trivial, _, rfl, rfl⟩

/-- Passthrough/transformation shape of the analysis fold: every line in the
output is an input of the accumulator, an untouched stored line, or an
`analyzeLine` result of a stored line. -/
lemma analyzeStep_fold_mem (s : DB) (faults : List (Nat × Nat)) (aid cid : Nat)
    (adate : Day) (items : List AuditLineItem)
    (acc : List AuditLineItem × List AnomalyRec × Nat) (l' : AuditLineItem)
    (h : l' ∈ (items.foldl (analyzeStep s faults aid cid adate) acc).1) :
    l' ∈ acc.1 ∨ (∃ item ∈ items, l' = item)
      ∨ (∃ item ∈ items, ∃ n, l' = (analyzeLine s faults cid adate n item).1) := by
  induction items generalizing acc with
  | nil => exact Or.inl h
  | cons x xs ih =>
    rw [List.foldl_cons] at h
    rcases ih (analyzeStep s faults aid cid adate acc x) h with
      hacc | ⟨y, hy, hly⟩ | ⟨y, hy, n, hly⟩
    · have hx : l' ∈ acc.1 ∨ l' = x
          ∨ ∃ n, l' = (analyzeLine s faults cid adate n x).1 := by
        unfold analyzeStep at hacc
        split at hacc
        · split at hacc
          · simp only [List.mem_append, List.mem_singleton] at hacc
            tauto
          · simp only [List.mem_append, List.mem_singleton] at hacc
            rcases hacc with h1 | h1
            · exact Or.inl h1
            · exact Or.inr (Or.inr ⟨acc.2.2, h1⟩)
        · simp only [List.mem_append, List.mem_singleton] at hacc
          tauto
      rcases hx with h1 | h1 | ⟨n, h1⟩
      · exact Or.inl h1
      · exact Or.inr (Or.inl ⟨x, List.mem_cons_self x xs, h1⟩)
      · exact Or.inr (Or.inr ⟨x, List.mem_cons_self x xs, n, h1⟩)
    · exact Or.inr (Or.inl ⟨y, List.mem_cons_of_mem x hy, hly⟩)
    · exact Or.inr (Or.inr ⟨y, List.mem_cons_of_mem x hy, n, hly⟩)

end MaterialAudit

namespace MaterialAudit

/-- C2: in the audit flow a line is flagged anomalous — and an `Anomaly`
record is raised — iff its variance is strictly negative AND its absolute
variance percentage exceeds the resolved threshold (shortage only); in the
reconciliation flow a line is flagged (and an `Anomaly` raised) iff the
absolute variance percentage exceeds the threshold in either direction; a
beyond-threshold excess therefore raises nothing in the audit flow but does
raise a `reconciliation_excess` anomaly in the reconciliation flow.  Every
line stored by `analyze_audit` is either untouched (skipped) or satisfies the
shortage-only rule. -/
theorem anomaly_rule_shortage_only_vs_both_directions :
    (∀ (s : DB) (faults : List (Nat × Nat)) (cid anomId : Nat) (adate : Day)
        (item : AuditLineItem),
      ((analyzeLine s faults cid adate anomId item).1.is_anomaly = some true ↔
        (∃ v p t, (analyzeLine s faults cid adate anomId item).1.variance = some v
          ∧ (analyzeLine s faults cid adate anomId item).1.variance_percentage = some p
          ∧ (analyzeLine s faults cid adate anomId item).1.threshold_used = some t
          ∧ v < 0 ∧ |p| > t))
      ∧ ((analyzeLine s faults cid adate anomId item).2.isSome ↔
          (analyzeLine s faults cid adate anomId item).1.is_anomaly = some true)
      ∧ (∀ v, (analyzeLine s faults cid adate anomId item).1.variance = some v →
          0 < v →
          (analyzeLine s faults cid adate anomId item).1.is_anomaly = some false
            ∧ (analyzeLine s faults cid adate anomId item).2 = none))
    ∧ (∀ (s : DB) (cid reconId anomId : Nat) (item : ReconItemRequest)
        (material : Material),
      ((reconLine s cid reconId anomId item material).1.is_anomaly = true ↔
        (∃ p t, (reconLine s cid reconId anomId item material).1.variance_percentage
            = some p
          ∧ (reconLine s cid reconId anomId item material).1.threshold_used = some t
          ∧ |p| > t))
      ∧ ((reconLine s cid reconId anomId item material).2.isSome ↔
          (reconLine s cid reconId anomId item material).1.is_anomaly = true)
      ∧ (∀ v p t,
          (reconLine s cid reconId anomId item material).1.variance = some v →
          (reconLine s cid reconId anomId item material).1.variance_percentage
            = some p →
          (reconLine s cid reconId anomId item material).1.threshold_used = some t →
          0 < v → |p| > t →
          (reconLine s cid reconId anomId item material).1.is_anomaly = true
            ∧ ∃ an, (reconLine s cid reconId anomId item material).2 = some an
              ∧ an.anomaly_type = "reconciliation_excess"))
    ∧ (∀ (faults : List (Nat × Nat)) (s : DB) (aid : Nat) (out : Unit × DB),
        analyze_audit faults s aid = .ok out →
        ∀ l' ∈ out.2.audit_line_items, l' ∈ s.audit_line_items ∨
          (l'.is_anomaly = some true ↔
            ∃ v p t, l'.variance = some v ∧ l'.variance_percentage = some p
              ∧ l'.threshold_used = some t ∧ v < 0 ∧ |p| > t)) := by
  refine ⟨?_, ?_, ?_⟩
  · intro s faults cid anomId adate item
    exact ⟨analyzeLine_anomaly_iff s faults cid adate anomId item,
      analyzeLine_anomaly_record_iff s faults cid adate anomId item,
      fun v hv hp => analyzeLine_excess_no_anomaly s faults cid adate anomId item v hv hp⟩
  · intro s cid reconId anomId item material
    exact ⟨reconLine_anomaly_iff s cid reconId anomId item material,
      reconLine_anomaly_record_iff s cid reconId anomId item material,
      fun v p t hv hp ht h1 h2 =>
        reconLine_excess_anomaly s cid reconId anomId item material v p t hv hp ht h1 h2⟩
  · intro faults s aid out hok l' hl'
    unfold analyze_audit at hok
    split at hok
    · simp at hok
    case _ audit hfind =>
      split at hok
      · injection hok with hok'
        subst hok'
        dsimp only at hl'
        rcases analyzeStep_fold_mem s faults aid audit.contractor_id
            audit.audit_date s.audit_line_items ([], [], s.nextId) l' hl' with
          h0 | ⟨y, hy, hly⟩ | ⟨y, _, n, hly⟩
        · simp at h0
        · exact Or.inl (hly ▸ hy)
        · subst hly
          exact Or.inr (analyzeLine_anomaly_iff s faults audit.contractor_id
            audit.audit_date n y)
      · simp at hok

end MaterialAudit

namespace MaterialAudit

/-- Day used by the concrete scenario states. -/
def scenDay : Day := epochFloor + 400

/-- An audit line of the concrete scenario (audit 10, material 1). -/
def scenAuditItem (pc : Option Qty) : AuditLineItem :=
  { id := 11, audit_id := 10, material_id := 1, physical_count := pc
    unit_of_measure := "kg", auditor_notes := none, expected_quantity := none
    variance := none, variance_percentage := none, threshold_used := none
    is_anomaly := none, anomaly_id := none }

/-- Concrete scenario: contractor 1 holds a live balance of 50 kg of
material 1, but 120 kg were issued since the epoch (and no check resolved),
so the calculator derives an expected quantity of 120.  One audit (id 10) is
submitted with a counted quantity of 140. -/
def scenDB : DB :=
  { contractors := [⟨1, "Acme"⟩]
    materials := [⟨1, "STL", "Steel", "kg"⟩]
    warehouses := []
    warehouse_inventory := []
    fg_inventory := []
    contractor_inventory := [⟨1, 1, 50⟩]
    conversions := []
    thresholds := []
    check_lines := []
    issuances := [⟨1, 1, 1, 1, 120, "kg", 120, "kg", scenDay - 10⟩]
    consumptions := []
    rejections := []
    audits := [⟨10, 10, 1, scenDay, "Aud", "SCHEDULED", .submitted, none⟩]
    audit_line_items := [scenAuditItem (some 140)]
    anomalies := []
    adjustments := []
    reconciliations := []
    reconciliation_lines := []
    transfers := []
    today := scenDay
    nextId := 100 }

lemma scen_calc_ok : calculate_expected_inventory scenDB.check_lines
    scenDB.issuances scenDB.consumptions scenDB.rejections [] 1 1 scenDay
    = .ok 120 := by
  norm_num [calculate_expected_inventory, calculate_expected_inventory_detailed,
    calcExpectedCore, getOpeningBalance, mostRecentCheckLine, pickMaxByDate,
    getTotalIssued, getTotalConsumed, getTotalRejected, scenDB, scenDay,
    epochFloor, checkCandidate, List.filter, List.sum, Except.map]

end MaterialAudit

namespace MaterialAudit

lemma scen_item_variance :
    (analyzeLine scenDB [] 1 scenDay 99 (scenAuditItem (some 140))).1.variance
      = some 20 := by
  unfold analyzeLine scenAuditItem
  dsimp only
  rw [scen_calc_ok]
  norm_num [pyDecOrZero]

lemma scen_reconLine_fields :
    (reconLine scenDB 1 50 99 ⟨1, 140, none⟩ ⟨1, "STL", "Steel", "kg"⟩).1.variance
        = some 90
    ∧ (reconLine scenDB 1 50 99 ⟨1, 140, none⟩
        ⟨1, "STL", "Steel", "kg"⟩).1.variance_percentage = some 180
    ∧ (reconLine scenDB 1 50 99 ⟨1, 140, none⟩
        ⟨1, "STL", "Steel", "kg"⟩).1.threshold_used = some 2 := by
  unfold reconLine liveSystemQty findContractorInv
  norm_num [scenDB, get_threshold_with_source, contractorRowMatch, materialRowMatch,
    List.find?, SYSTEM_DEFAULT_THRESHOLD]

theorem anomaly_rule_witness :
    (analyzeLine scenDB [] 1 scenDay 99 (scenAuditItem (some 140))).1.is_anomaly
        = some false
    ∧ (analyzeLine scenDB [] 1 scenDay 99 (scenAuditItem (some 140))).2 = none
    ∧ (reconLine scenDB 1 50 99 ⟨1, 140, none⟩
        ⟨1, "STL", "Steel", "kg"⟩).1.is_anomaly = true
    ∧ ∃ an, (reconLine scenDB 1 50 99 ⟨1, 140, none⟩
          ⟨1, "STL", "Steel", "kg"⟩).2 = some an
        ∧ an.anomaly_type = "reconciliation_excess" := by
  obtain ⟨hA, hR, _⟩ := anomaly_rule_shortage_only_vs_both_directions
  obtain ⟨hv, hp, ht⟩ := scen_reconLine_fields
  have h1 := (hA scenDB [] 1 99 scenDay (scenAuditItem (some 140))).2.2 20
    scen_item_variance (by norm_num)
  have h2 := (hR scenDB 1 50 99 ⟨1, 140, none⟩ ⟨1, "STL", "Steel", "kg"⟩).2.2
    90 180 2 hv hp ht (by norm_num) (by norm_num)
  exact ⟨h1.1, h1.2, h2.1, h2.2⟩

end MaterialAudit

namespace MaterialAudit

lemma calc_fault_of_mem (cl : List CheckLine) (iss : List IssuanceRec)
    (cons : List ConsumptionRec) (rej : List RejectionRec)
    (faults : List (Nat × Nat)) (cid mid : Nat) (asOf : Day)
    (h : (cid, mid) ∈ faults) :
    calculate_expected_inventory cl iss cons rej faults cid mid asOf
      = .error .calculationError := by
  unfold calculate_expected_inventory calculate_expected_inventory_detailed
  rw [if_pos h]
  rfl

lemma scen_fault_line_eval :
    analyzeLine scenDB [(1, 1)] 1 scenDay 100 (scenAuditItem (some 140))
      = ({ scenAuditItem (some 140) with
            expected_quantity := some 0
            variance := some 140
            variance_percentage := some 100
            threshold_used := some 2
            is_anomaly := some false
            anomaly_id := none }, none) := by
  unfold analyzeLine
  dsimp only
  rw [calc_fault_of_mem _ _ _ _ _ 1 _ _ (by simp [scenAuditItem])]
  norm_num [pyDecOrZero, get_threshold_with_source, scenDB, contractorRowMatch,
    materialRowMatch, List.find?, SYSTEM_DEFAULT_THRESHOLD, scenAuditItem]

lemma scen_fault_step_eval :
    analyzeStep scenDB [(1, 1)] 10 1 scenDay ([], [], 100) (scenAuditItem (some 140))
      = ([{ scenAuditItem (some 140) with
            expected_quantity := some 0
            variance := some 140
            variance_percentage := some 100
            threshold_used := some 2
            is_anomaly := some false
            anomaly_id := none }], [], 100) := by
  unfold analyzeStep
  rw [show ((scenAuditItem (some 140)).audit_id == 10) = true from by decide]
  rw [show findMaterial scenDB (scenAuditItem (some 140)).material_id
      = some ⟨1, "STL", "Steel", "kg"⟩ from by decide]
  simp only [if_true]
  rw [scen_fault_line_eval]
  simp

/-- C3 counterexample: with a downstream fetch failure for (contractor 1,
material 1) the calculator propagates `CalcErr.calculationError`, yet
`analyze_audit` still succeeds and stores `expected_quantity = 0` for the
line: the failure is silently replaced by zero instead of reaching the
caller. -/
theorem calc_error_propagation_counterexample :
    (calculate_expected_inventory scenDB.check_lines scenDB.issuances
        scenDB.consumptions scenDB.rejections [(1, 1)] 1 1 scenDay
      = .error .calculationError)
    ∧ ((analyze_audit [(1, 1)] scenDB 10).map
        (fun out => out.2.audit_line_items.map (fun l => l.expected_quantity)))
      = .ok [some 0] := by
  refine ⟨calc_fault_of_mem _ _ _ _ _ 1 1 _ (by simp), ?_⟩
  unfold analyze_audit
  rw [show scenDB.audits.find? (fun a => a.id == 10)
      = some ⟨10, 10, 1, scenDay, "Aud", "SCHEDULED", .submitted, none⟩ from by decide]
  rw [show scenDB.audit_line_items = [scenAuditItem (some 140)] from rfl]
  rw [show scenDB.nextId = 100 from rfl]
  simp only [List.foldl_cons, List.foldl_nil]
  rw [scen_fault_step_eval]
  simp [Except.map]

end MaterialAudit

namespace MaterialAudit

/-- C3 (amended): the calculator wraps a downstream failure into a single
calculation error and propagates it; but `analyze_audit` catches any such
error and silently substitutes 0 as the line's expected quantity
(audits.py lines 354-363), so analysis succeeds regardless of calculation
failures; only absent a failure does the stored expected quantity equal the
genuinely computed opening-balance/movement result. -/
theorem calc_error_swallowed_amended (s : DB) (faults : List (Nat × Nat))
    (cid anomId : Nat) (adate : Day) (item : AuditLineItem) (aid : Nat) :
    ((cid, item.material_id) ∈ faults →
      calculate_expected_inventory s.check_lines s.issuances s.consumptions
          s.rejections faults cid item.material_id adate = .error .calculationError
        ∧ (analyzeLine s faults cid adate anomId item).1.expected_quantity = some 0)
    ∧ ((cid, item.material_id) ∉ faults →
      (analyzeLine s faults cid adate anomId item).1.expected_quantity
        = some (calcExpectedCore s.check_lines s.issuances s.consumptions
            s.rejections cid item.material_id adate).expected)
    ∧ ((analyze_audit faults s aid).isOk ↔ (analyze_audit [] s aid).isOk) := by
  refine ⟨?_, ?_, ?_⟩
  · intro h
    have hc := calc_fault_of_mem s.check_lines s.issuances s.consumptions
      s.rejections faults cid item.material_id adate h
    refine ⟨hc, ?_⟩
    unfold analyzeLine
    dsimp only
    rw [hc]
  · intro h
    have hc : calculate_expected_inventory s.check_lines s.issuances
        s.consumptions s.rejections faults cid item.material_id adate
        = .ok (calcExpectedCore s.check_lines s.issuances s.consumptions
            s.rejections cid item.material_id adate).expected := by
      unfold calculate_expected_inventory calculate_expected_inventory_detailed
      rw [if_neg h]
      rfl
    unfold analyzeLine
    dsimp only
    rw [hc]
  · unfold analyze_audit
    cases hfind : s.audits.find? (fun a => a.id == aid) with
    | none => simp
    | some audit =>
      by_cases hst : audit.status = .submitted
      · simp [hst, Except.isOk, Except.toBool]
      · simp [hst]

/-- Witness for the amended C3 at the concrete scenario: the faulted line is
stored with expected 0 while analysis succeeds either way. -/
theorem calc_error_swallowed_amended_witness :
    (calculate_expected_inventory scenDB.check_lines scenDB.issuances
        scenDB.consumptions scenDB.rejections [(1, 1)] 1 1 scenDay
      = .error .calculationError)
    ∧ (analyzeLine scenDB [(1, 1)] 1 scenDay 99
        (scenAuditItem (some 140))).1.expected_quantity = some 0
    ∧ ((analyze_audit [(1, 1)] scenDB 10).isOk ↔ (analyze_audit [] scenDB 10).isOk) := by
  have h := calc_error_swallowed_amended scenDB [(1, 1)] 1 99 scenDay
    (scenAuditItem (some 140)) 10
  have h1 := h.1 (by simp [scenAuditItem])
  exact ⟨h1.1, h1.2, h.2.2⟩

end MaterialAudit

namespace MaterialAudit

/-- The reconciliation line stored for the scenario submission. -/
def scenReconLine : ReconciliationLine :=
  { reconciliation_id := 100
    material_id := 1
    reported_quantity := 140
    unit_of_measure := "kg"
    contractor_notes := none
    system_quantity := some 50
    variance := some 90
    variance_percentage := some 180
    threshold_used := some 2
    is_anomaly := true
    anomaly_id := some 101 }

/-- The anomaly raised by the scenario submission. -/
def scenReconAnomaly : AnomalyRec :=
  { id := 101
    contractor_id := 1
    material_id := 1
    expected_quantity := 50
    actual_quantity := 140
    variance := 90
    variance_percent := 180
    anomaly_type := "reconciliation_excess"
    resolved := false }

lemma scen_reconLine_eval :
    reconLine scenDB 1 100 101 ⟨1, 140, none⟩ ⟨1, "STL", "Steel", "kg"⟩
      = (scenReconLine, some scenReconAnomaly) := by
  unfold reconLine liveSystemQty findContractorInv scenReconLine scenReconAnomaly
  norm_num [scenDB, List.find?, get_threshold_with_source, contractorRowMatch,
    materialRowMatch, SYSTEM_DEFAULT_THRESHOLD]

lemma scen_recon_step_eval :
    reconItemStep scenDB 1 100 ([], [], 101) ⟨1, 140, none⟩
      = .ok ([scenReconLine], [scenReconAnomaly], 102) := by
  unfold reconItemStep
  rw [show findMaterial scenDB (⟨1, 140, none⟩ : ReconItemRequest).material_id
      = some ⟨1, "STL", "Steel", "kg"⟩ from by decide]
  dsimp only
  rw [scen_reconLine_eval]
  simp

/-- C7 counterexample: the Expected-Inventory Calculator derives 120 for
(contractor 1, material 1) as of the reconciliation date, but the submitted
reconciliation line stores `system_quantity = 50` — the live contractor
balance, not the calculator result of section 4.3. -/
theorem recon_expected_source_counterexample :
    (calculate_expected_inventory scenDB.check_lines scenDB.issuances
        scenDB.consumptions scenDB.rejections [] 1 1 scenDay = .ok 120)
    ∧ ((submit_reconciliation scenDB ⟨1, scenDay, [⟨1, 140, none⟩]⟩).map
        (fun out => out.2.reconciliation_lines.map (fun l => l.system_quantity)))
      = .ok [some 50]
    ∧ some (50 : Qty) ≠ some (120 : Qty) := by
  refine ⟨scen_calc_ok, ?_, by simp⟩
  unfold submit_reconciliation
  rw [show findContractor scenDB 1 = some ⟨1, "Acme"⟩ from by decide]
  rw [show scenDB.nextId = 100 from rfl]
  norm_num only
  simp only [foldE, scen_recon_step_eval]
  simp [Except.map, scenReconLine,
    show scenDB.reconciliation_lines = [] from rfl]

lemma reconFold_spec (s : DB) (cid reconId : Nat) :
    ∀ (items : List ReconItemRequest)
      (acc res : List ReconciliationLine × List AnomalyRec × Nat),
      foldE (reconItemStep s cid reconId) acc items = .ok res →
      ∃ newLines, res.1 = acc.1 ++ newLines
        ∧ List.Forall₂ (fun (item : ReconItemRequest) (l : ReconciliationLine) =>
            l.material_id = item.material_id
            ∧ l.reported_quantity = item.reported_quantity
            ∧ l.system_quantity = some (liveSystemQty s cid item.material_id)
            ∧ l.variance = some (item.reported_quantity
                - liveSystemQty s cid item.material_id)
            ∧ l.threshold_used = some ((get_threshold_with_source s.thresholds cid
                item.material_id).threshold_percentage))
          items newLines := by
  intro items
  induction items with
  | nil =>
    intro acc res h
    simp only [foldE, Except.ok.injEq] at h
    subst h
    exact ⟨[], by simp, List.Forall₂.nil⟩
  | cons x xs ih =>
    intro acc res h
    simp only [foldE] at h
    cases hstep : reconItemStep s cid reconId acc x with
    | error e => rw [hstep] at h; simp at h
    | ok acc1 =>
      rw [hstep] at h
      obtain ⟨nl, hres, hF⟩ := ih acc1 res h
      unfold reconItemStep at hstep
      cases hmat : findMaterial s x.material_id with
      | none => rw [hmat] at hstep; simp at hstep
      | some material =>
        rw [hmat] at hstep
        simp only [Except.ok.injEq] at hstep
        subst hstep
        refine ⟨(reconLine s cid reconId acc.2.2 x material).1 :: nl, ?_, ?_⟩
        · simp only at hres
          rw [hres]
          simp
        · exact List.Forall₂.cons ⟨rfl, rfl, rfl, rfl, rfl⟩ hF

/-- C7 (amended): `submit_reconciliation` computes each line's expected
(system) quantity, variance and threshold immediately at submission time for
every submitted item — but the expected quantity it uses is the contractor's
live recorded balance (`ContractorInventory.quantity`, 0 when absent), not
the section 4.3 expected-inventory calculation. -/
theorem recon_expected_is_live_balance (s : DB)
    (req : ReconciliationSubmitRequest) (out : Unit × DB)
    (h : submit_reconciliation s req = .ok out) :
    ∃ newLines, out.2.reconciliation_lines = s.reconciliation_lines ++ newLines
      ∧ List.Forall₂ (fun (item : ReconItemRequest) (l : ReconciliationLine) =>
          l.material_id = item.material_id
          ∧ l.reported_quantity = item.reported_quantity
          ∧ l.system_quantity = some (liveSystemQty s req.contractor_id
              item.material_id)
          ∧ l.variance = some (item.reported_quantity
              - liveSystemQty s req.contractor_id item.material_id)
          ∧ l.threshold_used = some ((get_threshold_with_source s.thresholds
              req.contractor_id item.material_id).threshold_percentage))
        req.items newLines := by
  unfold submit_reconciliation at h
  cases hc : findContractor s req.contractor_id with
  | none => rw [hc] at h; simp at h
  | some contractor =>
    rw [hc] at h
    dsimp only at h
    cases hfold : foldE (reconItemStep s req.contractor_id s.nextId)
        ([], [], s.nextId + 1) req.items with
    | error e => rw [hfold] at h; simp at h
    | ok built =>
      rw [hfold] at h
      simp only [Except.ok.injEq] at h
      subst h
      obtain ⟨nl, hres, hF⟩ := reconFold_spec s req.contractor_id s.nextId
        req.items ([], [], s.nextId + 1) built hfold
      exact ⟨nl, by simp only; rw [hres]; simp, hF⟩

/-- The full state produced by the scenario submission. -/
def scenPostReconDB : DB :=
  { scenDB with
    reconciliations := [⟨100, 1, scenDay, "SUBMITTED"⟩]
    reconciliation_lines := [scenReconLine]
    anomalies := [scenReconAnomaly]
    nextId := 102 }

lemma scen_submit_eval :
    submit_reconciliation scenDB ⟨1, scenDay, [⟨1, 140, none⟩]⟩
      = .ok ((), scenPostReconDB) := by
  unfold submit_reconciliation
  rw [show findContractor scenDB 1 = some ⟨1, "Acme"⟩ from by decide]
  rw [show scenDB.nextId = 100 from rfl]
  norm_num only
  simp only [foldE, scen_recon_step_eval]
  rfl

/-- Witness for the amended C7 at the concrete scenario submission. -/
theorem recon_expected_is_live_balance_witness :
    ∃ newLines,
      scenPostReconDB.reconciliation_lines
          = scenDB.reconciliation_lines ++ newLines
      ∧ List.Forall₂ (fun (item : ReconItemRequest) (l : ReconciliationLine) =>
          l.material_id = item.material_id
          ∧ l.reported_quantity = item.reported_quantity
          ∧ l.system_quantity = some (liveSystemQty scenDB 1 item.material_id)
          ∧ l.variance = some (item.reported_quantity
              - liveSystemQty scenDB 1 item.material_id)
          ∧ l.threshold_used = some ((get_threshold_with_source scenDB.thresholds 1
              item.material_id).threshold_percentage))
        [⟨1, 140, none⟩] newLines :=
  recon_expected_is_live_balance scenDB ⟨1, scenDay, [⟨1, 140, none⟩]⟩
    ((), scenPostReconDB) scen_submit_eval

end MaterialAudit

namespace MaterialAudit

lemma pickMaxByDate_eq_none_iff (L : List CheckLine) :
    pickMaxByDate L = none ↔ L = [] := by
  induction L with
  | nil => simp [pickMaxByDate]
  | cons x xs ih =>
    simp only [pickMaxByDate]
    cases h : pickMaxByDate xs with
    | none => simp
    | some b => by_cases hd : x.check_date < b.check_date <;> simp [hd]

lemma pickMaxByDate_mem (L : List CheckLine) (b : CheckLine)
    (h : pickMaxByDate L = some b) : b ∈ L := by
  induction L generalizing b with
  | nil => simp [pickMaxByDate] at h
  | cons x xs ih =>
    cases hp : pickMaxByDate xs with
    | none =>
      simp only [pickMaxByDate, hp, Option.some.injEq] at h
      subst h
      exact List.mem_cons_self x xs
    | some c =>
      simp only [pickMaxByDate, hp] at h
      by_cases hd : x.check_date < c.check_date
      · rw [if_pos hd] at h
        simp only [Option.some.injEq] at h
        subst h
        exact List.mem_cons_of_mem x (ih c hp)
      · rw [if_neg hd] at h
        simp only [Option.some.injEq] at h
        subst h
        exact List.mem_cons_self x xs

lemma pickMaxByDate_max (L : List CheckLine) (b : CheckLine)
    (h : pickMaxByDate L = some b) :
    ∀ x ∈ L, x.check_date ≤ b.check_date := by
  induction L generalizing b with
  | nil => simp [pickMaxByDate] at h
  | cons x xs ih =>
    intro y hy
    rcases List.mem_cons.mp hy with rfl | hy'
    · cases hp : pickMaxByDate xs with
      | none =>
        simp only [pickMaxByDate, hp, Option.some.injEq] at h
        subst h
        exact le_refl _
      | some c =>
        simp only [pickMaxByDate, hp] at h
        by_cases hd : y.check_date < c.check_date
        · rw [if_pos hd] at h
          simp only [Option.some.injEq] at h
          subst h
          exact hd.le
        · rw [if_neg hd] at h
          simp only [Option.some.injEq] at h
          subst h
          exact le_refl _
    · cases hp : pickMaxByDate xs with
      | none =>
        rw [pickMaxByDate_eq_none_iff] at hp
        subst hp
        simp at hy'
      | some c =>
        simp only [pickMaxByDate, hp] at h
        have hyc := ih c hp y hy'
        by_cases hd : x.check_date < c.check_date
        · rw [if_pos hd] at h
          simp only [Option.some.injEq] at h
          subst h
          exact hyc
        · rw [if_neg hd] at h
          simp only [Option.some.injEq] at h
          subst h
          exact hyc.trans (not_lt.mp hd)

/-- The spec-side notion of "the most recent resolved check line for this
(contractor, material) dated strictly before `asOfDate`" (section 4.3 step 1):
a resolved candidate whose date no other resolved candidate exceeds. -/
def IsMostRecentResolvedBefore (lines : List CheckLine) (cid mid : Nat)
    (asOf : Day) (l : CheckLine) : Prop :=
  l ∈ lines ∧ l.contractor_id = cid ∧ l.status = "resolved" ∧ l.material_id = mid
    ∧ l.check_date < asOf
    ∧ ∀ l2 ∈ lines, l2.contractor_id = cid → l2.status = "resolved" →
        l2.material_id = mid → l2.check_date < asOf → l2.check_date ≤ l.check_date

/-- C5: the expected-inventory calculation returns
opening + issued − consumed − rejected, where opening/window come from the
most recent resolved check line strictly before the as-of date (window starts
the day after it), or 0 and the epoch floor when none exists, and the three
sums range over the movement events of the pair inside
[windowStart, asOfDate].  The hypothesis states that resolved check lines
carry a recorded actual quantity. -/
theorem expected_inventory_formula (checkLines : List CheckLine)
    (issuances : List IssuanceRec) (consumptions : List ConsumptionRec)
    (rejections : List RejectionRec) (cid mid : Nat) (asOf : Day)
    (hres : ∀ l ∈ checkLines, l.status = "resolved" → l.actual_quantity ≠ none) :
    (calcExpectedCore checkLines issuances consumptions rejections cid mid
        asOf).expected
      = (calcExpectedCore checkLines issuances consumptions rejections cid mid
          asOf).opening_balance
        + (calcExpectedCore checkLines issuances consumptions rejections cid mid
            asOf).issued
        - (calcExpectedCore checkLines issuances consumptions rejections cid mid
            asOf).consumed
        - (calcExpectedCore checkLines issuances consumptions rejections cid mid
            asOf).rejected
    ∧ (calcExpectedCore checkLines issuances consumptions rejections cid mid
        asOf).end_date = asOf
    ∧ ((∃ l a, IsMostRecentResolvedBefore checkLines cid mid asOf l
          ∧ l.actual_quantity = some a
          ∧ (calcExpectedCore checkLines issuances consumptions rejections cid mid
              asOf).opening_balance = a
          ∧ (calcExpectedCore checkLines issuances consumptions rejections cid mid
              asOf).start_date = l.check_date + 1)
      ∨ ((¬ ∃ l, IsMostRecentResolvedBefore checkLines cid mid asOf l)
          ∧ (calcExpectedCore checkLines issuances consumptions rejections cid mid
              asOf).opening_balance = 0
          ∧ (calcExpectedCore checkLines issuances consumptions rejections cid mid
              asOf).start_date = epochFloor))
    ∧ (calcExpectedCore checkLines issuances consumptions rejections cid mid
        asOf).issued
      = ((issuances.filter (fun i => i.contractor_id == cid
          && i.material_id == mid
          && decide ((calcExpectedCore checkLines issuances consumptions rejections
              cid mid asOf).start_date ≤ i.issued_date)
          && decide (i.issued_date ≤ asOf))).map
            (fun i => i.quantity_in_base_unit)).sum
    ∧ (calcExpectedCore checkLines issuances consumptions rejections cid mid
        asOf).consumed
      = ((consumptions.filter (fun c => c.contractor_id == cid
          && c.material_id == mid
          && decide ((calcExpectedCore checkLines issuances consumptions rejections
              cid mid asOf).start_date ≤ c.consumed_date)
          && decide (c.consumed_date ≤ asOf))).map (fun c => c.quantity)).sum
    ∧ (calcExpectedCore checkLines issuances consumptions rejections cid mid
        asOf).rejected
      = ((rejections.filter (fun r => r.contractor_id == cid
          && r.material_id == mid
          && decide (r.status = STATUS_RECEIVED_AT_WAREHOUSE)
          && decide ((calcExpectedCore checkLines issuances consumptions rejections
              cid mid asOf).start_date ≤ r.rejection_date)
          && decide (r.rejection_date ≤ asOf))).map
            (fun r => r.quantity_rejected)).sum := by
  refine ⟨rfl, rfl, ?_, rfl, rfl, rfl⟩
  unfold calcExpectedCore getOpeningBalance mostRecentCheckLine
  cases hp : pickMaxByDate (checkLines.filter (checkCandidate cid mid asOf)) with
  | none =>
    rw [pickMaxByDate_eq_none_iff] at hp
    refine Or.inr ⟨?_, rfl, rfl⟩
    rintro ⟨l, hl, hcid, hst, hmid, hd, _⟩
    have : l ∈ checkLines.filter (checkCandidate cid mid asOf) := by
      apply List.mem_filter.mpr
      refine ⟨hl, ?_⟩
      simp [checkCandidate, hcid, hst, hmid, hd]
    rw [hp] at this
    simp at this
  | some l =>
    have hmem := pickMaxByDate_mem _ _ hp
    have hmax := pickMaxByDate_max _ _ hp
    have hlmem := (List.mem_filter.mp hmem).1
    have hcand := (List.mem_filter.mp hmem).2
    simp only [checkCandidate, Bool.and_eq_true, beq_iff_eq, decide_eq_true_eq] at hcand
    obtain ⟨⟨⟨hcid, hst⟩, hmid⟩, hd⟩ := hcand
    cases ha : l.actual_quantity with
    | none => exact absurd ha (hres l hlmem hst)
    | some a =>
      refine Or.inl ⟨l, a, ⟨hlmem, hcid, hst, hmid, hd, ?_⟩, ha, by simp [ha], by simp [ha]⟩
      intro l2 hl2 h1 h2 h3 h4
      exact hmax l2 (List.mem_filter.mpr ⟨hl2, by simp [checkCandidate, h1, h2, h3, h4]⟩)
end MaterialAudit

namespace MaterialAudit

/-- Issuances/consumptions of the spec's concrete scenario: no prior resolved
check, 200 issued, 80 consumed. -/
def demoIssuances : List IssuanceRec :=
  [⟨2, 1, 1, 1, 200, "kg", 200, "kg", scenDay - 5⟩]

def demoConsumptions : List ConsumptionRec := [⟨1, 1, 80, scenDay - 3⟩]

/-- Witness for C5 at the spec's concrete scenario: with no prior resolved
check the opening balance is 0, the window starts at the epoch floor, and
expected = 0 + 200 − 80 − 0 = 120. -/
theorem expected_inventory_formula_witness :
    (calcExpectedCore [] demoIssuances demoConsumptions [] 1 1 scenDay).expected
      = (calcExpectedCore [] demoIssuances demoConsumptions [] 1 1
          scenDay).opening_balance
        + (calcExpectedCore [] demoIssuances demoConsumptions [] 1 1
            scenDay).issued
        - (calcExpectedCore [] demoIssuances demoConsumptions [] 1 1
            scenDay).consumed
        - (calcExpectedCore [] demoIssuances demoConsumptions [] 1 1
            scenDay).rejected
    ∧ (calcExpectedCore [] demoIssuances demoConsumptions [] 1 1
        scenDay).opening_balance = 0
    ∧ (calcExpectedCore [] demoIssuances demoConsumptions [] 1 1
        scenDay).start_date = epochFloor
    ∧ (calcExpectedCore [] demoIssuances demoConsumptions [] 1 1
        scenDay).expected = 120 := by
  obtain ⟨h1, _, h3, _⟩ := expected_inventory_formula [] demoIssuances
    demoConsumptions [] 1 1 scenDay (by simp)
  rcases h3 with ⟨l, a, ⟨hl, _⟩, _⟩ | ⟨_, h0, hs⟩
  · simp at hl
  · refine ⟨h1, h0, hs, ?_⟩
    norm_num [calcExpectedCore, getOpeningBalance, mostRecentCheckLine,
      pickMaxByDate, getTotalIssued, getTotalConsumed, getTotalRejected,
      demoIssuances, demoConsumptions, scenDay, epochFloor, checkCandidate,
      List.filter, List.sum]

end MaterialAudit

namespace MaterialAudit

/-- C10: starting an audit for an existing contractor with no audit in
progress but no strictly positive inventory row fails, and the staged audit
header and line items are never committed: the committed state is unchanged. -/
theorem start_audit_no_positive_inventory (s : DB) (req : AuditStartRequest)
    (hc : (findContractor s req.contractor_id).isSome)
    (hnoip : s.audits.find? (fun a => a.contractor_id == req.contractor_id
        && decide (a.status = AuditStatus.in_progress)) = none)
    (hempty : ∀ r ∈ s.contractor_inventory,
        r.contractor_id = req.contractor_id → ¬ (0 < r.quantity)) :
    start_audit s req = .error .noMaterialsToAudit
      ∧ applyOp s (.start req) = s := by
  have hfe : s.contractor_inventory.filter
      (fun r => r.contractor_id == req.contractor_id && decide (0 < r.quantity))
      = [] := by
    rw [List.filter_eq_nil_iff]
    intro r hr
    simp only [Bool.and_eq_true, beq_iff_eq, decide_eq_true_eq, not_and]
    exact hempty r hr
  obtain ⟨c, hcx⟩ := Option.isSome_iff_exists.mp hc
  have herr : start_audit s req = .error .noMaterialsToAudit := by
    unfold start_audit
    rw [hcx, hnoip]
    dsimp only
    rw [hfe]
    rfl
  exact ⟨herr, by simp only [applyOp, herr]⟩

/-- Concrete store for the C10 witness: contractor 1 exists, has no audit in
progress, and its only inventory row has quantity 0. -/
def emptyInvDB : DB :=
  { contractors := [⟨1, "Acme"⟩]
    materials := [⟨1, "STL", "Steel", "kg"⟩]
    warehouses := []
    warehouse_inventory := []
    fg_inventory := []
    contractor_inventory := [⟨1, 1, 0⟩]
    conversions := []
    thresholds := []
    check_lines := []
    issuances := []
    consumptions := []
    rejections := []
    audits := []
    audit_line_items := []
    anomalies := []
    adjustments := []
    reconciliations := []
    reconciliation_lines := []
    transfers := []
    today := scenDay
    nextId := 1 }

/-- Witness for C10 at the concrete store. -/
theorem start_audit_no_positive_inventory_witness :
    start_audit emptyInvDB ⟨1, "Aud", "SCHEDULED", none⟩
        = .error .noMaterialsToAudit
      ∧ applyOp emptyInvDB (.start ⟨1, "Aud", "SCHEDULED", none⟩) = emptyInvDB :=
  start_audit_no_positive_inventory emptyInvDB ⟨1, "Aud", "SCHEDULED", none⟩
    (by decide)
    (by decide)
    (by intro r hr h1
        simp only [emptyInvDB, List.mem_singleton] at hr
        subst hr
        norm_num)

end MaterialAudit

namespace MaterialAudit

/-- The available source balance a transfer line is checked against:
the first matching source-warehouse row's quantity, 0 when absent. -/
def sourceAvail (s : DB) (t : TransferRec) (line : TransferLine) : Qty :=
  if t.transfer_type = "material" then
    match findWarehouseInv s t.source_warehouse_id line.material_id with
    | none => 0
    | some r => r.current_quantity
  else
    match findFgInv s t.source_warehouse_id line.finished_good_id with
    | none => 0
    | some r => r.current_quantity

lemma transferLineStep_insufficient (t : TransferRec) (s : DB)
    (line : TransferLine) (h : sourceAvail s t line < line.quantity) :
    transferLineStep t s line
      = .error (.insufficientStock (sourceAvail s t line) line.quantity) := by
  by_cases ht : t.transfer_type = "material"
  · cases hf : findWarehouseInv s t.source_warehouse_id line.material_id with
    | none =>
      have havail : sourceAvail s t line = 0 := by
        unfold sourceAvail
        rw [if_pos ht, hf]
      rw [havail]
      unfold transferLineStep
      rw [if_pos ht, hf]
    | some src =>
      have havail : sourceAvail s t line = src.current_quantity := by
        unfold sourceAvail
        rw [if_pos ht, hf]
      rw [havail] at h
      rw [havail]
      unfold transferLineStep
      rw [if_pos ht, hf]
      dsimp only
      rw [if_pos h]
  · cases hf : findFgInv s t.source_warehouse_id line.finished_good_id with
    | none =>
      have havail : sourceAvail s t line = 0 := by
        unfold sourceAvail
        rw [if_neg ht, hf]
      rw [havail]
      unfold transferLineStep
      rw [if_neg ht, hf]
    | some src =>
      have havail : sourceAvail s t line = src.current_quantity := by
        unfold sourceAvail
        rw [if_neg ht, hf]
      rw [havail] at h
      rw [havail]
      unfold transferLineStep
      rw [if_neg ht, hf]
      dsimp only
      rw [if_pos h]

lemma find?_updateFirst_same {α : Type} (p : α → Bool) (f : α → α) (l : List α)
    (x : α) (hx : l.find? p = some x) (hp : ∀ a, p (f a) = p a) :
    (updateFirst p f l).find? p = some (f x) := by
  induction l with
  | nil => simp [List.find?] at hx
  | cons a as ih =>
    by_cases hpa : p a = true
    · rw [List.find?_cons_of_pos _ hpa] at hx
      simp only [Option.some.injEq] at hx
      subst hx
      unfold updateFirst
      rw [if_pos hpa]
      exact List.find?_cons_of_pos _ (by rw [hp]; exact hpa)
    · have hpa' : p a = false := by simpa using hpa
      rw [List.find?_cons_of_neg _ (by simp [hpa'])] at hx
      unfold updateFirst
      rw [if_neg (by simp [hpa'])]
      rw [List.find?_cons_of_neg _ (by simp [hpa'])]
      exact ih hx

end MaterialAudit

namespace MaterialAudit

lemma create_issuance_insufficient (s : DB) (req : IssuanceRequest)
    (ctx : IssuanceCtx) (hctx : issuanceContext s req = .ok ctx)
    (hlt : ctx.warehouse_qty_in_base < ctx.quantity_in_base_unit) :
    create_issuance s req
      = .error (.insufficientStock ctx.warehouse_inv.current_quantity
          req.quantity) := by
  unfold create_issuance
  rw [hctx]
  dsimp only
  rw [if_pos hlt]

lemma issuanceContext_same_unit (s : DB) (req : IssuanceRequest) (w : Warehouse)
    (c : Contractor) (m : Material) (wrow : WarehouseInventoryRow)
    (hw : s.warehouses.find? (fun x => x.id == req.warehouse_id) = some w)
    (hact : w.is_active = true)
    (hc : findContractor s req.contractor_id = some c)
    (hm : findMaterial s req.material_id = some m)
    (hwinv : findWarehouseInv s req.warehouse_id req.material_id = some wrow)
    (hu1 : normUnit req.unit_of_measure = normUnit m.unit)
    (hu2 : normUnit wrow.unit_of_measure = normUnit m.unit) :
    issuanceContext s req = .ok ⟨normUnit m.unit, normUnit req.unit_of_measure,
      req.quantity, wrow, normUnit wrow.unit_of_measure,
      wrow.current_quantity⟩ := by
  unfold issuanceContext
  simp only [hw, hc, hm, hwinv, hact, hu1, hu2, ite_true, if_pos]

lemma create_issuance_same_unit_ok (s : DB) (req : IssuanceRequest)
    (w : Warehouse) (c : Contractor) (m : Material) (wrow : WarehouseInventoryRow)
    (hw : s.warehouses.find? (fun x => x.id == req.warehouse_id) = some w)
    (hact : w.is_active = true)
    (hc : findContractor s req.contractor_id = some c)
    (hm : findMaterial s req.material_id = some m)
    (hwinv : findWarehouseInv s req.warehouse_id req.material_id = some wrow)
    (hu1 : normUnit req.unit_of_measure = normUnit m.unit)
    (hu2 : normUnit wrow.unit_of_measure = normUnit m.unit)
    (hsuff : ¬ (wrow.current_quantity < req.quantity)) :
    ∃ s1, create_issuance s req = .ok ((), s1)
      ∧ s1.warehouses = s.warehouses
      ∧ s1.contractors = s.contractors
      ∧ s1.materials = s.materials
      ∧ s1.conversions = s.conversions
      ∧ findWarehouseInv s1 req.warehouse_id req.material_id
          = some { wrow with
              current_quantity := wrow.current_quantity - req.quantity } := by
  have hctx := issuanceContext_same_unit s req w c m wrow hw hact hc hm hwinv hu1 hu2
  unfold create_issuance
  rw [hctx]
  dsimp only
  rw [if_neg hsuff, if_pos hu2]
  refine ⟨_, rfl, rfl, rfl, rfl, rfl, ?_⟩
  exact find?_updateFirst_same _ _ _ wrow hwinv (fun a => rfl)

/-- C4: a requested quantity exceeding the available source balance makes the
operation fail with an insufficient-stock error carrying available vs.
requested, and the committed state is exactly the pre-call state; in
particular, issuing the full warehouse balance leaves the warehouse at 0 and
a further issue of any positive quantity fails and changes nothing. -/
theorem insufficient_stock_fails_and_leaves_balances :
    (∀ (s : DB) (req : IssuanceRequest) (ctx : IssuanceCtx),
      issuanceContext s req = .ok ctx →
      ctx.warehouse_qty_in_base < ctx.quantity_in_base_unit →
      create_issuance s req
          = .error (.insufficientStock ctx.warehouse_inv.current_quantity
              req.quantity)
        ∧ applyOp s (.issue req) = s)
    ∧ (∀ (s : DB) (tid : Nat) (t : TransferRec) (line : TransferLine)
        (rest : List TransferLine),
      s.transfers.find? (fun x => x.id == tid) = some t →
      (t.status = "draft" ∨ t.status = "submitted") →
      t.lines = line :: rest →
      sourceAvail s t line < line.quantity →
      complete_stock_transfer s tid
          = .error (.insufficientStock (sourceAvail s t line) line.quantity)
        ∧ applyOp s (.completeTransfer tid) = s)
    ∧ (∀ (s : DB) (req1 req2 : IssuanceRequest) (w : Warehouse) (c : Contractor)
        (m : Material) (wrow : WarehouseInventoryRow),
      s.warehouses.find? (fun x => x.id == req1.warehouse_id) = some w →
      w.is_active = true →
      findContractor s req1.contractor_id = some c →
      findMaterial s req1.material_id = some m →
      findWarehouseInv s req1.warehouse_id req1.material_id = some wrow →
      normUnit req1.unit_of_measure = normUnit m.unit →
      normUnit wrow.unit_of_measure = normUnit m.unit →
      req1.quantity = wrow.current_quantity →
      req2.warehouse_id = req1.warehouse_id →
      req2.contractor_id = req1.contractor_id →
      req2.material_id = req1.material_id →
      normUnit req2.unit_of_measure = normUnit m.unit →
      0 < req2.quantity →
      ∃ s1, create_issuance s req1 = .ok ((), s1)
        ∧ (∃ row1, findWarehouseInv s1 req1.warehouse_id req1.material_id
              = some row1 ∧ row1.current_quantity = 0)
        ∧ create_issuance s1 req2
            = .error (.insufficientStock 0 req2.quantity)
        ∧ applyOp s1 (.issue req2) = s1) := by
  refine ⟨?_, ?_, ?_⟩
  · intro s req ctx hctx hlt
    have herr := create_issuance_insufficient s req ctx hctx hlt
    exact ⟨herr, by simp only [applyOp, herr]⟩
  · intro s tid t line rest hfind hstatus hlines hlt
    have herr : complete_stock_transfer s tid
        = .error (.insufficientStock (sourceAvail s t line) line.quantity) := by
      unfold complete_stock_transfer
      rw [hfind]
      dsimp only
      rw [if_pos hstatus, hlines]
      simp only [foldE]
      rw [transferLineStep_insufficient t s line hlt]
    exact ⟨herr, by simp only [applyOp, herr]⟩
  · intro s req1 req2 w c m wrow hw hact hc hm hwinv hu1 hu2 hfull hw2 hc2 hm2
      hu12 hq2
    obtain ⟨s1, hok, hwareq, hconeq, hmateq, hconveq, hrow⟩ :=
      create_issuance_same_unit_ok s req1 w c m wrow hw hact hc hm hwinv hu1 hu2
        (by rw [hfull]; exact lt_irrefl _)
    have h0 : wrow.current_quantity - req1.quantity = 0 := by
      rw [hfull, sub_self]
    have hctx2 := issuanceContext_same_unit s1 req2 w c m
      { wrow with current_quantity := wrow.current_quantity - req1.quantity }
      (by rw [hwareq, hw2]; exact hw)
      hact
      (by unfold findContractor; rw [hconeq, hc2]; exact hc)
      (by unfold findMaterial; rw [hmateq, hm2]; exact hm)
      (by rw [hw2, hm2]; exact hrow)
      hu12
      hu2
    have hlt2 : ({ wrow with
        current_quantity := wrow.current_quantity - req1.quantity }
          : WarehouseInventoryRow).current_quantity < req2.quantity := by
      dsimp only
      rw [h0]
      exact hq2
    have herr2 := create_issuance_insufficient s1 req2 _ hctx2 hlt2
    have herr2' : create_issuance s1 req2
        = .error (.insufficientStock 0 req2.quantity) := by
      rw [herr2]
      dsimp only
      rw [h0]
    refine ⟨s1, hok, ⟨_, hrow, ?_⟩, herr2', by simp only [applyOp, herr2']⟩
    dsimp only
    rw [h0]

end MaterialAudit

namespace MaterialAudit

/-- Concrete store for the C4 witness: warehouse 1 holds 500 kg of steel; a
submitted transfer (id 7) asks for 600. -/
def c4DB : DB :=
  { contractors := [⟨1, "Acme"⟩]
    materials := [⟨1, "STL", "Steel", "kg"⟩]
    warehouses := [⟨1, "Main", true⟩]
    warehouse_inventory := [⟨1, 1, 500, "kg"⟩]
    fg_inventory := []
    contractor_inventory := []
    conversions := []
    thresholds := []
    check_lines := []
    issuances := []
    consumptions := []
    rejections := []
    audits := []
    audit_line_items := []
    anomalies := []
    adjustments := []
    reconciliations := []
    reconciliation_lines := []
    transfers := [⟨7, 1, 2, "material", "submitted", [⟨1, 0, 600, none⟩]⟩]
    today := scenDay
    nextId := 1 }

/-- Witness for C4: issuing the full 500 kg succeeds and zeroes the warehouse
balance, a further 1 kg issue fails insufficient and changes nothing; the
600 kg transfer against 500 kg available fails with available vs. requested
and changes nothing. -/
theorem insufficient_stock_witness :
    (∃ s1, create_issuance c4DB ⟨1, 1, 1, 500, "kg", scenDay⟩ = .ok ((), s1)
      ∧ (∃ row1, findWarehouseInv s1 1 1 = some row1
          ∧ row1.current_quantity = 0)
      ∧ create_issuance s1 ⟨1, 1, 1, 1, "kg", scenDay⟩
          = .error (.insufficientStock 0 1)
      ∧ applyOp s1 (.issue ⟨1, 1, 1, 1, "kg", scenDay⟩) = s1)
    ∧ complete_stock_transfer c4DB 7 = .error (.insufficientStock 500 600)
    ∧ applyOp c4DB (.completeTransfer 7) = c4DB := by
  obtain ⟨p1, p2, p3⟩ := insufficient_stock_fails_and_leaves_balances
  refine ⟨?_, ?_⟩
  · exact p3 c4DB ⟨1, 1, 1, 500, "kg", scenDay⟩ ⟨1, 1, 1, 1, "kg", scenDay⟩
      ⟨1, "Main", true⟩ ⟨1, "Acme"⟩ ⟨1, "STL", "Steel", "kg"⟩ ⟨1, 1, 500, "kg"⟩
      (by decide) rfl (by decide) (by decide) (by decide) rfl rfl rfl rfl rfl rfl
      rfl (by norm_num)
  · have hsa : sourceAvail c4DB ⟨7, 1, 2, "material", "submitted", [⟨1, 0, 600, none⟩]⟩
        ⟨1, 0, 600, none⟩ = 500 := by
      norm_num [sourceAvail, findWarehouseInv, c4DB, List.find?]
    have h := p2 c4DB 7 ⟨7, 1, 2, "material", "submitted", [⟨1, 0, 600, none⟩]⟩
      ⟨1, 0, 600, none⟩ [] (by decide) (Or.inr rfl) rfl
      (by rw [hsa]; norm_num)
    rw [hsa] at h
    exact h

end MaterialAudit

namespace MaterialAudit

lemma find?_updateFirst_other {α : Type} (p q : α → Bool) (f : α → α)
    (l : List α) (hdisj : ∀ a, p a = true → q a = false)
    (hqf : ∀ a, q (f a) = q a) :
    (updateFirst p f l).find? q = l.find? q := by
  induction l with
  | nil => rfl
  | cons a as ih =>
    by_cases hpa : p a = true
    · unfold updateFirst
      rw [if_pos hpa]
      rw [List.find?_cons_of_neg _ (by simp [hqf a, hdisj a hpa])]
      rw [List.find?_cons_of_neg _ (by simp [hdisj a hpa])]
    · have hpa' : p a = false := by simpa using hpa
      unfold updateFirst
      rw [if_neg (by simp [hpa'])]
      cases hqa : q a
      · rw [List.find?_cons_of_neg _ (by simp [hqa]),
          List.find?_cons_of_neg _ (by simp [hqa])]
        exact ih
      · rw [List.find?_cons_of_pos _ hqa, List.find?_cons_of_pos _ hqa]

/-- `acceptLine` leaves inventory rows of other materials untouched. -/
lemma acceptLine_inv_other (cid : Nat) (s : DB) (item : AuditLineItem)
    (mid : Nat) (h : mid ≠ item.material_id) :
    findContractorInv (acceptLine cid s item) cid mid
      = findContractorInv s cid mid := by
  unfold acceptLine
  cases hf : findContractorInv s cid item.material_id with
  | none => rfl
  | some inv =>
    dsimp only
    by_cases heq : inv.quantity = pyDecOrZero item.physical_count
    · rw [if_pos heq]
    · rw [if_neg heq]
      unfold findContractorInv
      dsimp only
      exact find?_updateFirst_other _ _ _ _
        (by intro a ha
            simp only [Bool.and_eq_true, beq_iff_eq] at ha
            simp [ha.2, Ne.symm h])
        (fun a => rfl)

/-- `acceptLine` only ever appends adjustments, each referencing the processed
line. -/
lemma acceptLine_adjustments (cid : Nat) (s : DB) (item : AuditLineItem) :
    ∃ extra, (acceptLine cid s item).adjustments = s.adjustments ++ extra
      ∧ ∀ adj ∈ extra, adj.audit_line_item_id = some item.id := by
  unfold acceptLine
  cases hf : findContractorInv s cid item.material_id with
  | none => exact ⟨[], by simp, by simp⟩
  | some inv =>
    dsimp only
    by_cases heq : inv.quantity = pyDecOrZero item.physical_count
    · rw [if_pos heq]
      exact ⟨[], by simp, by simp⟩
    · rw [if_neg heq]
      refine ⟨_, rfl, ?_⟩
      intro adj hadj
      simp only [List.mem_singleton] at hadj
      subst hadj
      rfl

/-- `acceptLine` does not touch anomalies, audits or line items. -/
lemma acceptLine_frame (cid : Nat) (s : DB) (item : AuditLineItem) :
    (acceptLine cid s item).anomalies = s.anomalies
      ∧ (acceptLine cid s item).audits = s.audits
      ∧ (acceptLine cid s item).audit_line_items = s.audit_line_items := by
  unfold acceptLine
  cases hf : findContractorInv s cid item.material_id with
  | none => exact ⟨rfl, rfl, rfl⟩
  | some inv =>
    dsimp only
    by_cases heq : inv.quantity = pyDecOrZero item.physical_count
    · rw [if_pos heq]
      exact ⟨rfl, rfl, rfl⟩
    · rw [if_neg heq]
      exact ⟨rfl, rfl, rfl⟩

lemma acceptFold_inv_frame (cid : Nat) (xs : List AuditLineItem) (mid : Nat)
    (h : ∀ y ∈ xs, y.material_id ≠ mid) :
    ∀ s : DB, findContractorInv (xs.foldl (acceptLine cid) s) cid mid
      = findContractorInv s cid mid := by
  induction xs with
  | nil => intro s; rfl
  | cons y ys ih =>
    intro s
    rw [List.foldl_cons]
    rw [ih (fun z hz => h z (List.mem_cons_of_mem y hz))]
    exact acceptLine_inv_other cid s y mid
      (fun hc => h y (List.mem_cons_self y ys) hc.symm)

lemma acceptFold_adjustments (cid : Nat) (xs : List AuditLineItem) :
    ∀ s : DB, ∃ extra,
      (xs.foldl (acceptLine cid) s).adjustments = s.adjustments ++ extra
        ∧ ∀ adj ∈ extra, ∃ y ∈ xs, adj.audit_line_item_id = some y.id := by
  induction xs with
  | nil => intro s; exact ⟨[], by simp, by simp⟩
  | cons y ys ih =>
    intro s
    rw [List.foldl_cons]
    obtain ⟨e1, he1, hm1⟩ := acceptLine_adjustments cid s y
    obtain ⟨e2, he2, hm2⟩ := ih (acceptLine cid s y)
    refine ⟨e1 ++ e2, ?_, ?_⟩
    · rw [he2, he1, List.append_assoc]
    · intro adj hadj
      rcases List.mem_append.mp hadj with h1 | h2
      · exact ⟨y, List.mem_cons_self y ys, hm1 adj h1⟩
      · obtain ⟨z, hz, hzid⟩ := hm2 adj h2
        exact ⟨z, List.mem_cons_of_mem y hz, hzid⟩

lemma acceptFold_anomalies (cid : Nat) (xs : List AuditLineItem) :
    ∀ s : DB, (xs.foldl (acceptLine cid) s).anomalies = s.anomalies := by
  induction xs with
  | nil => intro s; rfl
  | cons y ys ih =>
    intro s
    rw [List.foldl_cons, ih, (acceptLine_frame cid s y).1]

end MaterialAudit

namespace MaterialAudit

/-- Per-line behaviour of the adjustment fold of `accept_counts`, for lines
with pairwise-distinct materials and ids (the table's unique constraints). -/
lemma acceptFold_spec (cid : Nat) :
    ∀ (L : List AuditLineItem) (s : DB),
    L.Pairwise (fun a b => a.material_id ≠ b.material_id) →
    L.Pairwise (fun a b => a.id ≠ b.id) →
    ∀ item ∈ L, ∀ inv, findContractorInv s cid item.material_id = some inv →
      ((inv.quantity ≠ pyDecOrZero item.physical_count →
        findContractorInv (L.foldl (acceptLine cid) s) cid item.material_id
          = some { inv with quantity := pyDecOrZero item.physical_count }
        ∧ ∃ adj ∈ (L.foldl (acceptLine cid) s).adjustments,
            adj.audit_line_item_id = some item.id
            ∧ adj.contractor_id = cid ∧ adj.material_id = item.material_id
            ∧ adj.quantity_before = inv.quantity
            ∧ adj.quantity_after = pyDecOrZero item.physical_count
            ∧ adj.adjustment_quantity
                = pyDecOrZero item.physical_count - inv.quantity)
      ∧ (inv.quantity = pyDecOrZero item.physical_count →
        findContractorInv (L.foldl (acceptLine cid) s) cid item.material_id
          = some inv
        ∧ ∀ adj ∈ (L.foldl (acceptLine cid) s).adjustments,
            adj.audit_line_item_id = some item.id → adj ∈ s.adjustments)) := by
  intro L
  induction L with
  | nil => intro s _ _ item hitem; simp at hitem
  | cons x xs ih =>
    intro s hmat hid item hitem inv hinv
    have hmat' := (List.pairwise_cons.mp hmat).2
    have hmatx := (List.pairwise_cons.mp hmat).1
    have hid' := (List.pairwise_cons.mp hid).2
    have hidx := (List.pairwise_cons.mp hid).1
    rcases List.mem_cons.mp hitem with rfl | hmem
    · -- item is the head line
      rw [List.foldl_cons]
      constructor
      · intro hne
        -- the head actually adjusts
        have hstep : acceptLine cid s item
            = { s with
                adjustments := s.adjustments ++
                  [{ contractor_id := cid
                     material_id := item.material_id
                     audit_line_item_id := some item.id
                     quantity_before := inv.quantity
                     quantity_after := pyDecOrZero item.physical_count
                     adjustment_quantity :=
                       pyDecOrZero item.physical_count - inv.quantity
                     unit_of_measure := item.unit_of_measure }]
                contractor_inventory :=
                  updateFirst (fun r => r.contractor_id == cid
                      && r.material_id == item.material_id)
                    (fun r => { r with
                      quantity := pyDecOrZero item.physical_count })
                    s.contractor_inventory } := by
          unfold acceptLine
          rw [hinv]
          dsimp only
          rw [if_neg (fun hq => hne hq)]
        rw [hstep]
        constructor
        · rw [acceptFold_inv_frame cid xs item.material_id
            (fun y hy => (hmatx y hy).symm)]
          unfold findContractorInv
          dsimp only
          exact find?_updateFirst_same _ _ _ inv hinv (fun a => rfl)
        · obtain ⟨extra, hadj, _⟩ := acceptFold_adjustments cid xs _
          refine ⟨{ contractor_id := cid
                    material_id := item.material_id
                    audit_line_item_id := some item.id
                    quantity_before := inv.quantity
                    quantity_after := pyDecOrZero item.physical_count
                    adjustment_quantity :=
                      pyDecOrZero item.physical_count - inv.quantity
                    unit_of_measure := item.unit_of_measure },
            ?_, rfl, rfl, rfl, rfl, rfl, rfl⟩
          rw [hadj]
          dsimp only
          simp
      · intro heqq
        -- the head is already in balance: acceptLine is the identity here
        have hstep : acceptLine cid s item = s := by
          unfold acceptLine
          rw [hinv]
          dsimp only
          rw [if_pos heqq]
        rw [hstep]
        constructor
        · rw [acceptFold_inv_frame cid xs item.material_id
            (fun y hy => (hmatx y hy).symm)]
          exact hinv
        · intro adj hadj hadjid
          obtain ⟨extra, he, hm⟩ := acceptFold_adjustments cid xs s
          rw [he] at hadj
          rcases List.mem_append.mp hadj with h1 | h2
          · exact h1
          · obtain ⟨y, hy, hyid⟩ := hm adj h2
            rw [hyid] at hadjid
            simp only [Option.some.injEq] at hadjid
            exact absurd hadjid.symm (hidx y hy)
    · -- item occurs later; the head step leaves its row untouched
      rw [List.foldl_cons]
      have hframe : findContractorInv (acceptLine cid s x) cid item.material_id
          = some inv := by
        rw [acceptLine_inv_other cid s x item.material_id
          (fun hc => (hmatx item hmem) hc.symm)]
        exact hinv
      have hih := ih (acceptLine cid s x) hmat' hid' item hmem inv hframe
      refine ⟨fun hne => (hih.1 hne), fun heqq => ⟨(hih.2 heqq).1, ?_⟩⟩
      intro adj hadj hadjid
      have h2 := (hih.2 heqq).2 adj hadj hadjid
      obtain ⟨e1, he1, hm1⟩ := acceptLine_adjustments cid s x
      rw [he1] at h2
      rcases List.mem_append.mp h2 with h3 | h4
      · exact h3
      · have := hm1 adj h4
        rw [this] at hadjid
        simp only [Option.some.injEq] at hadjid
        exact absurd hadjid (hidx item hmem)

end MaterialAudit

namespace MaterialAudit

/-- `resolveLineAnomaly` only touches the anomalies table. -/
lemma resolveLineAnomaly_frame (s : DB) (item : AuditLineItem) :
    (resolveLineAnomaly s item).contractor_inventory = s.contractor_inventory
      ∧ (resolveLineAnomaly s item).adjustments = s.adjustments := by
  unfold resolveLineAnomaly
  cases item.anomaly_id with
  | none => exact ⟨rfl, rfl⟩
  | some k => exact ⟨rfl, rfl⟩

lemma resolveFold_frame (L : List AuditLineItem) :
    ∀ s : DB, (L.foldl resolveLineAnomaly s).contractor_inventory
        = s.contractor_inventory
      ∧ (L.foldl resolveLineAnomaly s).adjustments = s.adjustments := by
  induction L with
  | nil => intro s; exact ⟨rfl, rfl⟩
  | cons x xs ih =>
    intro s
    rw [List.foldl_cons]
    obtain ⟨h1, h2⟩ := ih (resolveLineAnomaly s x)
    obtain ⟨g1, g2⟩ := resolveLineAnomaly_frame s x
    exact ⟨h1.trans g1, h2.trans g2⟩

/-- A `resolveLineAnomaly` pass never clears a resolved flag and preserves
ids. -/
lemma resolveLineAnomaly_anomalies (s : DB) (item : AuditLineItem)
    (an' : AnomalyRec) (h : an' ∈ (resolveLineAnomaly s item).anomalies) :
    ∃ an ∈ s.anomalies, an'.id = an.id
      ∧ (an.resolved = true → an'.resolved = true)
      ∧ (item.anomaly_id = some an.id → an'.resolved = true) := by
  unfold resolveLineAnomaly at h
  cases hk : item.anomaly_id with
  | none =>
    rw [hk] at h
    exact ⟨an', h, rfl, fun h1 => h1, by simp⟩
  | some k =>
    rw [hk] at h
    dsimp only at h
    obtain ⟨an, han, hmap⟩ := List.mem_map.mp h
    by_cases hik : an.id == k
    · rw [if_pos hik] at hmap
      subst hmap
      refine ⟨an, han, rfl, fun _ => rfl, fun _ => rfl⟩
    · rw [if_neg hik] at hmap
      subst hmap
      refine ⟨an, han, rfl, fun h1 => h1, ?_⟩
      intro hek
      simp only [Option.some.injEq] at hek
      exact absurd (show (an.id == k) = true from by
        rw [hek]; exact beq_self_eq_true _) (by simpa using hik)

lemma resolveFold_keeps (L : List AuditLineItem) :
    ∀ (s : DB) (k : Nat),
      (∀ an ∈ s.anomalies, an.id = k → an.resolved = true) →
      ∀ an ∈ (L.foldl resolveLineAnomaly s).anomalies, an.id = k →
        an.resolved = true := by
  induction L with
  | nil => intro s k hs an han hid; exact hs an han hid
  | cons x xs ih =>
    intro s k hs an han hid
    rw [List.foldl_cons] at han
    refine ih (resolveLineAnomaly s x) k ?_ an han hid
    intro an1 han1 hid1
    obtain ⟨an0, han0, hid0, hkeep, _⟩ := resolveLineAnomaly_anomalies s x an1 han1
    exact hkeep (hs an0 han0 (hid0 ▸ hid1))

lemma resolveLine_sets (s : DB) (x : AuditLineItem) (k : Nat)
    (hx : x.anomaly_id = some k) :
    ∀ an ∈ (resolveLineAnomaly s x).anomalies, an.id = k → an.resolved = true := by
  intro an han hid
  obtain ⟨an0, _, hid0, _, hres⟩ := resolveLineAnomaly_anomalies s x an han
  exact hres (by rw [hx, ← hid0, hid])

/-- After the resolution fold, every anomaly linked from one of the lines is
resolved. -/
lemma resolveFold_resolves (L : List AuditLineItem) :
    ∀ (s : DB) (k : Nat), (∃ l ∈ L, l.anomaly_id = some k) →
      ∀ an ∈ (L.foldl resolveLineAnomaly s).anomalies, an.id = k →
        an.resolved = true := by
  induction L with
  | nil => intro s k hk; simp at hk
  | cons x xs ih =>
    intro s k hk an han hid
    rcases hk with ⟨l, hl, hlk⟩
    rcases List.mem_cons.mp hl with rfl | hl2
    · rw [List.foldl_cons] at han
      exact resolveFold_keeps xs (resolveLineAnomaly s l) k
        (resolveLine_sets s l k hlk) an han hid
    · rw [List.foldl_cons] at han
      exact ih (resolveLineAnomaly s x) k ⟨l, hl2, hlk⟩ an han hid

end MaterialAudit

namespace MaterialAudit

/-- C8: `acceptCounts` is permitted only in `Analyzed` status; for each line
whose physical count differs from the contractor's live balance it records an
InventoryAdjustment carrying before/after/delta and sets the balance to the
physical count; lines whose count equals the balance are left unchanged with
no adjustment; and every anomaly linked from a line of the audit is marked
resolved.  The pairwise hypotheses are the table's uniqueness constraints
(one line per material per audit; primary-key line ids). -/
theorem accept_counts_spec (s : DB) (aid : Nat) (audit : AuditRec)
    (hfind : s.audits.find? (fun a => a.id == aid) = some audit)
    (hmat : (s.audit_line_items.filter (fun l => l.audit_id == aid)).Pairwise
        (fun a b => a.material_id ≠ b.material_id))
    (hid : (s.audit_line_items.filter (fun l => l.audit_id == aid)).Pairwise
        (fun a b => a.id ≠ b.id)) :
    (audit.status ≠ .analyzed →
      accept_counts s aid = .error .invalidState
        ∧ applyOp s (.accept aid) = s)
    ∧ (audit.status = .analyzed →
      ∃ s2, accept_counts s aid = .ok ((), s2)
        ∧ (∀ item ∈ s.audit_line_items.filter (fun l => l.audit_id == aid),
            ∀ inv, findContractorInv s audit.contractor_id item.material_id
                = some inv →
            ((inv.quantity ≠ pyDecOrZero item.physical_count →
              findContractorInv s2 audit.contractor_id item.material_id
                  = some { inv with
                      quantity := pyDecOrZero item.physical_count }
                ∧ ∃ adj ∈ s2.adjustments,
                    adj.audit_line_item_id = some item.id
                    ∧ adj.contractor_id = audit.contractor_id
                    ∧ adj.material_id = item.material_id
                    ∧ adj.quantity_before = inv.quantity
                    ∧ adj.quantity_after = pyDecOrZero item.physical_count
                    ∧ adj.adjustment_quantity
                        = pyDecOrZero item.physical_count - inv.quantity)
            ∧ (inv.quantity = pyDecOrZero item.physical_count →
              findContractorInv s2 audit.contractor_id item.material_id
                  = some inv
                ∧ ∀ adj ∈ s2.adjustments,
                    adj.audit_line_item_id = some item.id →
                    adj ∈ s.adjustments)))
        ∧ (∀ k, (∃ l ∈ s.audit_line_items.filter (fun l => l.audit_id == aid),
              l.anomaly_id = some k) →
            ∀ an ∈ s2.anomalies, an.id = k → an.resolved = true)) := by
  constructor
  · intro hne
    have herr : accept_counts s aid = .error .invalidState := by
      unfold accept_counts
      rw [hfind]
      dsimp only
      rw [if_neg hne]
    exact ⟨herr, by simp only [applyOp, herr]⟩
  · intro hst
    have hok : accept_counts s aid = .ok ((),
        (s.audit_line_items.filter (fun l => l.audit_id == aid)).foldl
          resolveLineAnomaly
          ((s.audit_line_items.filter (fun l => l.audit_id == aid)).foldl
            (acceptLine audit.contractor_id) s)) := by
      unfold accept_counts
      rw [hfind]
      dsimp only
      rw [if_pos hst]
    refine ⟨_, hok, ?_, ?_⟩
    · intro item hitem inv hinv
      have hspec := acceptFold_spec audit.contractor_id
        (s.audit_line_items.filter (fun l => l.audit_id == aid)) s hmat hid
        item hitem inv hinv
      have hframe := resolveFold_frame
        (s.audit_line_items.filter (fun l => l.audit_id == aid))
        ((s.audit_line_items.filter (fun l => l.audit_id == aid)).foldl
          (acceptLine audit.contractor_id) s)
      constructor
      · intro hne
        obtain ⟨hinv1, adj, hadj, hprops⟩ := hspec.1 hne
        refine ⟨?_, adj, ?_, hprops⟩
        · unfold findContractorInv at hinv1 ⊢
          rw [hframe.1]
          exact hinv1
        · rw [hframe.2]
          exact hadj
      · intro heqq
        obtain ⟨hinv1, hnoadj⟩ := hspec.2 heqq
        refine ⟨?_, ?_⟩
        · unfold findContractorInv at hinv1 ⊢
          rw [hframe.1]
          exact hinv1
        · intro adj hadj hadjid
          rw [hframe.2] at hadj
          exact hnoadj adj hadj hadjid
    · intro k hk an han hid'
      exact resolveFold_resolves _ _ k hk an han hid'

end MaterialAudit

namespace MaterialAudit

def c8Line21 : AuditLineItem :=
  { id := 21, audit_id := 20, material_id := 1, physical_count := some 30
    unit_of_measure := "kg", auditor_notes := none
    expected_quantity := some 50, variance := some (-20)
    variance_percentage := some (-40), threshold_used := some 2
    is_anomaly := some true, anomaly_id := some 90 }

def c8Line22 : AuditLineItem :=
  { id := 22, audit_id := 20, material_id := 2, physical_count := some 10
    unit_of_measure := "kg", auditor_notes := none
    expected_quantity := some 10, variance := some 0
    variance_percentage := some 0, threshold_used := some 2
    is_anomaly := some false, anomaly_id := none }

/-- Concrete store for the C8 witness: analyzed audit 20 with one line whose
count (30) differs from the live balance (50) and one line in balance. -/
def c8DB : DB :=
  { contractors := [⟨1, "Acme"⟩]
    materials := [⟨1, "STL", "Steel", "kg"⟩, ⟨2, "CEM", "Cement", "kg"⟩]
    warehouses := []
    warehouse_inventory := []
    fg_inventory := []
    contractor_inventory := [⟨1, 1, 50⟩, ⟨1, 2, 10⟩]
    conversions := []
    thresholds := []
    check_lines := []
    issuances := []
    consumptions := []
    rejections := []
    audits := [⟨20, 20, 1, scenDay, "Aud", "SCHEDULED", .analyzed, none⟩]
    audit_line_items := [c8Line21, c8Line22]
    anomalies := [⟨90, 1, 1, 50, 30, -20, -40, "audit_shortage", false⟩]
    adjustments := []
    reconciliations := []
    reconciliation_lines := []
    transfers := []
    today := scenDay
    nextId := 100 }

/-- Witness for C8 at the concrete store. -/
theorem accept_counts_spec_witness :
    ∃ s2, accept_counts c8DB 20 = .ok ((), s2)
      ∧ findContractorInv s2 1 1
          = some { contractor_id := 1, material_id := 1, quantity := 30 }
      ∧ (∃ adj ∈ s2.adjustments, adj.audit_line_item_id = some 21
          ∧ adj.quantity_before = 50 ∧ adj.quantity_after = 30
          ∧ adj.adjustment_quantity = -20)
      ∧ findContractorInv s2 1 2
          = some { contractor_id := 1, material_id := 2, quantity := 10 }
      ∧ (∀ an ∈ s2.anomalies, an.id = 90 → an.resolved = true) := by
  have hfilter : c8DB.audit_line_items.filter (fun l => l.audit_id == 20)
      = [c8Line21, c8Line22] := rfl
  obtain ⟨_, h2⟩ := accept_counts_spec c8DB 20
    ⟨20, 20, 1, scenDay, "Aud", "SCHEDULED", .analyzed, none⟩
    (by decide)
    (by rw [hfilter]; simp [c8Line21, c8Line22])
    (by rw [hfilter]; simp [c8Line21, c8Line22])
  obtain ⟨s2, hok, hitems, hanoms⟩ := h2 rfl
  have hpy30 : pyDecOrZero (some 30) = (30 : Qty) := by norm_num [pyDecOrZero]
  have hpy10 : pyDecOrZero (some 10) = (10 : Qty) := by norm_num [pyDecOrZero]
  have h21 := hitems c8Line21 (by rw [hfilter]; simp) ⟨1, 1, 50⟩ (by decide)
  have h22 := hitems c8Line22 (by rw [hfilter]; simp) ⟨1, 2, 10⟩ (by decide)
  have h21d := h21.1 (by
    show (50 : Qty) ≠ pyDecOrZero c8Line21.physical_count
    rw [show c8Line21.physical_count = some 30 from rfl, hpy30]
    norm_num)
  have h22e := h22.2 (by
    show (10 : Qty) = pyDecOrZero c8Line22.physical_count
    rw [show c8Line22.physical_count = some 10 from rfl, hpy10])
  obtain ⟨hinv21, adj, hadjmem, hadjid, _, _, hbefore, hafter, hdelta⟩ := h21d
  refine ⟨s2, hok, ?_, ⟨adj, hadjmem, hadjid, hbefore, ?_, ?_⟩, h22e.1, ?_⟩
  · have h := hinv21
    rw [show c8Line21.physical_count = some 30 from rfl, hpy30] at h
    exact h
  · rw [hafter, show c8Line21.physical_count = some 30 from rfl, hpy30]
  · rw [hdelta, show c8Line21.physical_count = some 30 from rfl, hpy30]
    norm_num
  · intro an han hid'
    exact hanoms 90 ⟨c8Line21, by rw [hfilter]; simp, rfl⟩ an han hid'

end MaterialAudit

/-! ## C1 — blind audit invisibility (audits.py, schemas/audit.py) -/

namespace MaterialAudit

/-- The four analysis-only columns of an audit line are unset. -/
def hiddenUnset (l : AuditLineItem) : Prop :=
  l.expected_quantity = none ∧ l.variance = none ∧
    l.variance_percentage = none ∧ l.threshold_used = none

/-- Strip the four analysis-only columns from a line. -/
def eraseHidden (l : AuditLineItem) : AuditLineItem :=
  { l with expected_quantity := none, variance := none,
           variance_percentage := none, threshold_used := none }

/-- Strip the four analysis-only columns from every stored line. -/
def eraseHiddenAll (s : DB) : DB :=
  { s with audit_line_items := s.audit_line_items.map eraseHidden }

/-- Stored-state half of the blind-audit invariant: every line of an audit
that `analyze` has not yet processed has its analysis columns unset. -/
def BlindInv (s : DB) : Prop :=
  ∀ a ∈ s.audits,
    a.status = AuditStatus.in_progress ∨ a.status = AuditStatus.submitted →
    ∀ l ∈ s.audit_line_items, l.audit_id = a.id → hiddenUnset l

/-- Bookkeeping invariant: stored primary keys stay below the generator. -/
def IdsFresh (s : DB) : Prop :=
  (∀ a ∈ s.audits, a.id < s.nextId) ∧
    (∀ l ∈ s.audit_line_items, l.audit_id < s.nextId)

/-- The `audits.id` primary-key constraint. -/
def AuditsNodup (s : DB) : Prop :=
  s.audits.Pairwise (fun a b => a.id ≠ b.id)

def Inv (s : DB) : Prop := BlindInv s ∧ IdsFresh s ∧ AuditsNodup s

/-- Two lines agreeing on their audit and on the four analysis columns. -/
def sameHidden (l1 l2 : AuditLineItem) : Prop :=
  l1.audit_id = l2.audit_id ∧ l1.expected_quantity = l2.expected_quantity ∧
    l1.variance = l2.variance ∧ l1.variance_percentage = l2.variance_percentage ∧
    l1.threshold_used = l2.threshold_used

lemma sameHidden_trans (a b c : AuditLineItem) (h1 : sameHidden a b)
    (h2 : sameHidden b c) : sameHidden a c :=
  ⟨h1.1.trans h2.1, h1.2.1.trans h2.2.1, h1.2.2.1.trans h2.2.2.1,
    h1.2.2.2.1.trans h2.2.2.2.1, h1.2.2.2.2.trans h2.2.2.2.2⟩

lemma hiddenUnset_of_shadow (l1 l : AuditLineItem) (h : sameHidden l1 l)
    (hu : hiddenUnset l) : hiddenUnset l1 :=
  ⟨h.2.1.trans hu.1, h.2.2.1.trans hu.2.1, h.2.2.2.1.trans hu.2.2.1,
    h.2.2.2.2.trans hu.2.2.2⟩

lemma mem_updateFirst {α : Type} (p : α → Bool) (f : α → α) (l : List α) (y : α)
    (hy : y ∈ updateFirst p f l) : y ∈ l ∨ ∃ x ∈ l, p x = true ∧ y = f x := by
  induction l with
  | nil => exact Or.inl hy
  | cons a as ih =>
    unfold updateFirst at hy
    by_cases hp : p a = true
    · rw [if_pos hp] at hy
      rcases List.mem_cons.1 hy with h | h
      · exact Or.inr ⟨a, List.mem_cons_self a as, hp, h⟩
      · exact Or.inl (List.mem_cons_of_mem a h)
    · rw [if_neg hp] at hy
      rcases List.mem_cons.1 hy with h | h
      · exact Or.inl (h ▸ List.mem_cons_self a as)
      · rcases ih h with h1 | ⟨x, hx, hpx, hfx⟩
        · exact Or.inl (List.mem_cons_of_mem a h1)
        · exact Or.inr ⟨x, List.mem_cons_of_mem a hx, hpx, hfx⟩

/-- Under key uniqueness, a member of an `updateFirst` keyed on `aid` is
either an untouched row with a different key, or the rewritten row. -/
lemma mem_updateFirst_by_id {α : Type} (key : α → Nat) (aid : Nat) (f : α → α)
    (l : List α) (hnd : l.Pairwise (fun a b => key a ≠ key b)) (y : α)
    (hy : y ∈ updateFirst (fun a => key a == aid) f l) :
    (y ∈ l ∧ key y ≠ aid) ∨ ∃ x ∈ l, key x = aid ∧ y = f x := by
  induction l with
  | nil => exact absurd hy (List.not_mem_nil y)
  | cons a as ih =>
    unfold updateFirst at hy
    by_cases hp : key a = aid
    · rw [if_pos (by simpa using hp)] at hy
      rcases List.mem_cons.1 hy with h | h
      · exact Or.inr ⟨a, List.mem_cons_self a as, hp, h⟩
      · have hk : key y ≠ aid := by
          intro he
          exact (List.pairwise_cons.1 hnd).1 y h (by rw [hp, he])
        exact Or.inl ⟨List.mem_cons_of_mem a h, hk⟩
    · rw [if_neg (by simpa using hp)] at hy
      rcases List.mem_cons.1 hy with h | h
      · subst h
        exact Or.inl ⟨List.mem_cons_self y as, hp⟩
      · rcases ih (List.pairwise_cons.1 hnd).2 h with ⟨h1, h2⟩ | ⟨x, hx, hxk, hfx⟩
        · exact Or.inl ⟨List.mem_cons_of_mem a h1, h2⟩
        · exact Or.inr ⟨x, List.mem_cons_of_mem a hx, hxk, hfx⟩

lemma pairwise_updateFirst {α : Type} (R : α → α → Prop) (p : α → Bool)
    (f : α → α) (l : List α) (hf1 : ∀ a b, R a b → R (f a) b)
    (hf2 : ∀ a b, R a b → R a (f b)) (h : l.Pairwise R) :
    (updateFirst p f l).Pairwise R := by
  induction l with
  | nil => exact List.Pairwise.nil
  | cons a as ih =>
    rcases List.pairwise_cons.1 h with ⟨h1, h2⟩
    unfold updateFirst
    by_cases hp : p a = true
    · rw [if_pos hp]
      exact List.pairwise_cons.2 ⟨fun b hb => hf1 a b (h1 b hb), h2⟩
    · rw [if_neg hp]
      refine List.pairwise_cons.2 ⟨?_, ih h2⟩
      intro b hb
      rcases mem_updateFirst p f as b hb with h3 | ⟨x, hx, _, hfx⟩
      · exact h1 b h3
      · exact hfx ▸ hf2 a x (h1 x hx)

lemma updateFirst_map_comm {α : Type} (p : α → Bool) (f g : α → α) (l : List α)
    (hpg : ∀ a, p (g a) = p a) (hfg : ∀ a, f (g a) = g (f a)) :
    updateFirst p f (l.map g) = (updateFirst p f l).map g := by
  induction l with
  | nil => rfl
  | cons x xs ih =>
    simp only [List.map_cons, updateFirst, hpg]
    by_cases h : p x = true
    · rw [if_pos h, if_pos h, List.map_cons, hfg]
    · rw [if_neg h, if_neg h, List.map_cons, ih]

/-- An operation that leaves the audit tables alone and never lowers the id
generator preserves the invariant. -/
lemma inv_untouched (s s1 : DB) (ha : s1.audits = s.audits)
    (hl : s1.audit_line_items = s.audit_line_items)
    (hn : s.nextId ≤ s1.nextId) (h : Inv s) : Inv s1 := by
  obtain ⟨hb, ⟨hf1, hf2⟩, hnd⟩ := h
  refine ⟨?_, ⟨?_, ?_⟩, ?_⟩
  · intro a hma hst l hml hla
    exact hb a (ha ▸ hma) hst l (hl ▸ hml) hla
  · intro a hma
    exact lt_of_lt_of_le (hf1 a (ha ▸ hma)) hn
  · intro l hml
    exact lt_of_lt_of_le (hf2 l (hl ▸ hml)) hn
  · unfold AuditsNodup
    rw [ha]
    exact hnd

/-- An operation that keeps the audits and generator and only rewrites lines
without touching their audit link or analysis columns preserves the
invariant. -/
lemma inv_shadow (s s1 : DB) (ha : s1.audits = s.audits)
    (hn : s1.nextId = s.nextId)
    (hl : ∀ l1 ∈ s1.audit_line_items, ∃ l ∈ s.audit_line_items, sameHidden l1 l)
    (h : Inv s) : Inv s1 := by
  obtain ⟨hb, ⟨hf1, hf2⟩, hnd⟩ := h
  refine ⟨?_, ⟨?_, ?_⟩, ?_⟩
  · intro a hma hst l1 hml1 hla
    obtain ⟨l, hml, hsh⟩ := hl l1 hml1
    exact hiddenUnset_of_shadow l1 l hsh
      (hb a (ha ▸ hma) hst l hml (hsh.1.symm.trans hla))
  · intro a hma
    rw [hn]
    exact hf1 a (ha ▸ hma)
  · intro l1 hml1
    obtain ⟨l, hml, hsh⟩ := hl l1 hml1
    rw [hn, hsh.1]
    exact hf2 l hml
  · unfold AuditsNodup
    rw [ha]
    exact hnd

end MaterialAudit

namespace MaterialAudit

/-- A successful issuance does not touch the audit tables and bumps the id
generator. -/
lemma create_issuance_frame (s : DB) (req : IssuanceRequest) (r : Unit × DB)
    (h : create_issuance s req = .ok r) :
    r.2.audits = s.audits ∧ r.2.audit_line_items = s.audit_line_items ∧
      s.nextId ≤ r.2.nextId := by
  unfold create_issuance at h
  dsimp only at h
  repeat' split at h
  all_goals
    first
      | exact Except.noConfusion h
      | (cases h; exact ⟨rfl, rfl, Nat.le_succ _⟩)

/-- A transfer-completion line never touches the audit tables or the id
generator. -/
lemma transferLineStep_frame (t : TransferRec) (s : DB) (line : TransferLine)
    (s1 : DB) (h : transferLineStep t s line = .ok s1) :
    s1.audits = s.audits ∧ s1.audit_line_items = s.audit_line_items ∧
      s1.nextId = s.nextId := by
  unfold transferLineStep at h
  dsimp only at h
  repeat' split at h
  all_goals
    first
      | exact Except.noConfusion h
      | (cases h; exact ⟨rfl, rfl, rfl⟩)

lemma transferFold_frame (t : TransferRec) :
    ∀ (lines : List TransferLine) (s s1 : DB),
      foldE (transferLineStep t) s lines = .ok s1 →
      s1.audits = s.audits ∧ s1.audit_line_items = s.audit_line_items ∧
        s1.nextId = s.nextId := by
  intro lines
  induction lines with
  | nil =>
    intro s s1 h
    unfold foldE at h
    cases h
    exact ⟨rfl, rfl, rfl⟩
  | cons x xs ih =>
    intro s s1 h
    unfold foldE at h
    cases hstep : transferLineStep t s x with
    | error e => rw [hstep] at h; exact Except.noConfusion h
    | ok s2 =>
      rw [hstep] at h
      obtain ⟨a2, l2, n2⟩ := transferLineStep_frame t s x s2 hstep
      obtain ⟨a1, l1, n1⟩ := ih s2 s1 h
      exact ⟨a1.trans a2, l1.trans l2, n1.trans n2⟩

lemma complete_transfer_frame (s : DB) (tid : Nat) (r : Unit × DB)
    (h : complete_stock_transfer s tid = .ok r) :
    r.2.audits = s.audits ∧ r.2.audit_line_items = s.audit_line_items ∧
      s.nextId ≤ r.2.nextId := by
  unfold complete_stock_transfer at h
  cases hft : s.transfers.find? (fun t => t.id == tid) with
  | none =>
    simp only [hft] at h
    exact Except.noConfusion h
  | some t =>
    simp only [hft] at h
    by_cases hst : t.status = "draft" ∨ t.status = "submitted"
    · rw [if_pos hst] at h
      cases hfe : foldE (transferLineStep t) s t.lines with
      | error e => rw [hfe] at h; exact Except.noConfusion h
      | ok s1 =>
        rw [hfe] at h
        cases h
        obtain ⟨a1, l1, n1⟩ := transferFold_frame t t.lines s s1 hfe
        exact ⟨a1, l1, Nat.le_of_eq n1.symm⟩
    · rw [if_neg hst] at h
      exact Except.noConfusion h

/-- The reconciliation fold only ever advances its id counter. -/
lemma reconFold_nextId (s : DB) (cid reconId : Nat) :
    ∀ (items : List ReconItemRequest)
      (acc built : List ReconciliationLine × List AnomalyRec × Nat),
      foldE (reconItemStep s cid reconId) acc items = .ok built →
      acc.2.2 ≤ built.2.2 := by
  intro items
  induction items with
  | nil =>
    intro acc built h
    unfold foldE at h
    cases h
    exact Nat.le_refl _
  | cons x xs ih =>
    intro acc built h
    unfold foldE at h
    cases hstep : reconItemStep s cid reconId acc x with
    | error e => rw [hstep] at h; exact Except.noConfusion h
    | ok b2 =>
      rw [hstep] at h
      refine Nat.le_trans ?_ (ih b2 built h)
      unfold reconItemStep at hstep
      cases hm : findMaterial s x.material_id with
      | none => rw [hm] at hstep; exact Except.noConfusion hstep
      | some m =>
        rw [hm] at hstep
        cases hstep
        exact Nat.le_add_right _ _

lemma submit_recon_frame (s : DB) (req : ReconciliationSubmitRequest)
    (r : Unit × DB) (h : submit_reconciliation s req = .ok r) :
    r.2.audits = s.audits ∧ r.2.audit_line_items = s.audit_line_items ∧
      s.nextId ≤ r.2.nextId := by
  unfold submit_reconciliation at h
  cases hfc : findContractor s req.contractor_id with
  | none =>
    simp only [hfc] at h
    exact Except.noConfusion h
  | some c =>
    simp only [hfc] at h
    cases hfe : foldE (reconItemStep s req.contractor_id s.nextId)
        ([], [], s.nextId + 1) req.items with
    | error e => rw [hfe] at h; exact Except.noConfusion h
    | ok built =>
      rw [hfe] at h
      cases h
      refine ⟨rfl, rfl, ?_⟩
      exact Nat.le_trans (Nat.le_succ _)
        (reconFold_nextId s req.contractor_id s.nextId req.items
          ([], [], s.nextId + 1) built hfe)

/-- `acceptLine` touches neither audit table nor the id generator. -/
lemma acceptLine_keys (cid : Nat) (s : DB) (item : AuditLineItem) :
    (acceptLine cid s item).audits = s.audits
      ∧ (acceptLine cid s item).audit_line_items = s.audit_line_items
      ∧ (acceptLine cid s item).nextId = s.nextId := by
  unfold acceptLine
  cases hf : findContractorInv s cid item.material_id with
  | none => exact ⟨rfl, rfl, rfl⟩
  | some inv =>
    dsimp only
    by_cases heq : inv.quantity = pyDecOrZero item.physical_count
    · rw [if_pos heq]
      exact ⟨rfl, rfl, rfl⟩
    · rw [if_neg heq]
      exact ⟨rfl, rfl, rfl⟩

lemma acceptFold_keys (cid : Nat) (xs : List AuditLineItem) :
    ∀ s : DB, (xs.foldl (acceptLine cid) s).audits = s.audits
      ∧ (xs.foldl (acceptLine cid) s).audit_line_items = s.audit_line_items
      ∧ (xs.foldl (acceptLine cid) s).nextId = s.nextId := by
  induction xs with
  | nil => intro s; exact ⟨rfl, rfl, rfl⟩
  | cons y ys ih =>
    intro s
    rw [List.foldl_cons]
    obtain ⟨h1, h2, h3⟩ := ih (acceptLine cid s y)
    obtain ⟨g1, g2, g3⟩ := acceptLine_keys cid s y
    exact ⟨h1.trans g1, h2.trans g2, h3.trans g3⟩

lemma resolveLineAnomaly_keys (s : DB) (item : AuditLineItem) :
    (resolveLineAnomaly s item).audits = s.audits
      ∧ (resolveLineAnomaly s item).audit_line_items = s.audit_line_items
      ∧ (resolveLineAnomaly s item).nextId = s.nextId := by
  unfold resolveLineAnomaly
  cases item.anomaly_id with
  | none => exact ⟨rfl, rfl, rfl⟩
  | some k => exact ⟨rfl, rfl, rfl⟩

lemma resolveFold_keys (xs : List AuditLineItem) :
    ∀ s : DB, (xs.foldl resolveLineAnomaly s).audits = s.audits
      ∧ (xs.foldl resolveLineAnomaly s).audit_line_items = s.audit_line_items
      ∧ (xs.foldl resolveLineAnomaly s).nextId = s.nextId := by
  induction xs with
  | nil => intro s; exact ⟨rfl, rfl, rfl⟩
  | cons y ys ih =>
    intro s
    rw [List.foldl_cons]
    obtain ⟨h1, h2, h3⟩ := ih (resolveLineAnomaly s y)
    obtain ⟨g1, g2, g3⟩ := resolveLineAnomaly_keys s y
    exact ⟨h1.trans g1, h2.trans g2, h3.trans g3⟩

lemma accept_counts_frame (s : DB) (aid : Nat) (r : Unit × DB)
    (h : accept_counts s aid = .ok r) :
    r.2.audits = s.audits ∧ r.2.audit_line_items = s.audit_line_items ∧
      s.nextId ≤ r.2.nextId := by
  unfold accept_counts at h
  cases hfa : s.audits.find? (fun a => a.id == aid) with
  | none =>
    simp only [hfa] at h
    exact Except.noConfusion h
  | some audit =>
    simp only [hfa] at h
    by_cases hst : audit.status = AuditStatus.analyzed
    · rw [if_pos hst] at h
      cases h
      obtain ⟨a2, l2, n2⟩ := acceptFold_keys audit.contractor_id
        (s.audit_line_items.filter (fun l => l.audit_id == aid)) s
      obtain ⟨a1, l1, n1⟩ := resolveFold_keys
        (s.audit_line_items.filter (fun l => l.audit_id == aid))
        ((s.audit_line_items.filter (fun l => l.audit_id == aid)).foldl
          (acceptLine audit.contractor_id) s)
      exact ⟨a1.trans a2, l1.trans l2, Nat.le_of_eq (n1.trans n2).symm⟩
    · rw [if_neg hst] at h
      exact Except.noConfusion h

end MaterialAudit

namespace MaterialAudit

/-- A count entry rewrites one line in place, keeping its audit link and all
four analysis columns. -/
lemma applyCountEntry_shadow (aid : Nat) (s : DB) (e : PhysicalCountEntry)
    (s1 : DB) (h : applyCountEntry aid s e = .ok s1) :
    s1.audits = s.audits ∧ s1.nextId = s.nextId ∧
      ∀ l1 ∈ s1.audit_line_items, ∃ l ∈ s.audit_line_items, sameHidden l1 l := by
  unfold applyCountEntry at h
  cases hf : s.audit_line_items.find?
      (fun l => l.id == e.line_item_id && l.audit_id == aid) with
  | none =>
    simp only [hf] at h
    exact Except.noConfusion h
  | some x =>
    simp only [hf] at h
    cases h
    refine ⟨rfl, rfl, ?_⟩
    intro l1 h1
    dsimp only at h1
    rcases mem_updateFirst _ _ _ l1 h1 with h2 | ⟨y, hy, _, hfy⟩
    · exact ⟨l1, h2, rfl, rfl, rfl, rfl, rfl⟩
    · subst hfy
      exact ⟨y, hy, rfl, rfl, rfl, rfl, rfl⟩

lemma countFold_shadow (aid : Nat) :
    ∀ (counts : List PhysicalCountEntry) (s s1 : DB),
      foldE (applyCountEntry aid) s counts = .ok s1 →
      s1.audits = s.audits ∧ s1.nextId = s.nextId ∧
        ∀ l1 ∈ s1.audit_line_items, ∃ l ∈ s.audit_line_items, sameHidden l1 l := by
  intro counts
  induction counts with
  | nil =>
    intro s s1 h
    unfold foldE at h
    cases h
    exact ⟨rfl, rfl, fun l1 h1 => ⟨l1, h1, rfl, rfl, rfl, rfl, rfl⟩⟩
  | cons c cs ih =>
    intro s s1 h
    unfold foldE at h
    cases hstep : applyCountEntry aid s c with
    | error e => rw [hstep] at h; exact Except.noConfusion h
    | ok s2 =>
      rw [hstep] at h
      obtain ⟨ha2, hn2, hl2⟩ := applyCountEntry_shadow aid s c s2 hstep
      obtain ⟨ha1, hn1, hl1⟩ := ih s2 s1 h
      refine ⟨ha1.trans ha2, hn1.trans hn2, ?_⟩
      intro l1 h1
      obtain ⟨l2, hm2, hs12⟩ := hl1 l1 h1
      obtain ⟨l, hm, hs2⟩ := hl2 l2 hm2
      exact ⟨l, hm, sameHidden_trans l1 l2 l hs12 hs2⟩

/-- Every line created by the `start_audit` loop belongs to the new audit and
has all four analysis columns unset. -/
lemma startFold_lines (s : DB) (auditId : Nat)
    (items : List ContractorInventoryRow) :
    ∀ (acc : Nat × List AuditLineItem × List AuditMaterialForAuditor),
      ∀ l ∈ (items.foldl (startLineStep s auditId) acc).2.1,
        l ∈ acc.2.1 ∨ (l.audit_id = auditId ∧ hiddenUnset l) := by
  induction items with
  | nil => intro acc l hl; exact Or.inl hl
  | cons x xs ih =>
    intro acc l hl
    rw [List.foldl_cons] at hl
    rcases ih (startLineStep s auditId acc x) l hl with h | h
    · unfold startLineStep at h
      cases hm : findMaterial s x.material_id with
      | none =>
        rw [hm] at h
        exact Or.inl h
      | some m =>
        simp only [hm] at h
        rcases List.mem_append.1 h with h1 | h1
        · exact Or.inl h1
        · rw [List.mem_singleton] at h1
          subst h1
          exact Or.inr ⟨rfl, rfl, rfl, rfl, rfl⟩
    · exact Or.inr h

lemma startFold_counter (s : DB) (auditId : Nat)
    (items : List ContractorInventoryRow) :
    ∀ (acc : Nat × List AuditLineItem × List AuditMaterialForAuditor),
      acc.1 ≤ (items.foldl (startLineStep s auditId) acc).1 := by
  induction items with
  | nil => intro acc; exact Nat.le_refl _
  | cons x xs ih =>
    intro acc
    rw [List.foldl_cons]
    refine Nat.le_trans ?_ (ih (startLineStep s auditId acc x))
    unfold startLineStep
    cases hm : findMaterial s x.material_id with
    | none => exact Nat.le_refl _
    | some m => exact Nat.le_succ _

/-- The analysis fold only ever advances its anomaly-id counter. -/
lemma analyzeStep_counter (s : DB) (faults : List (Nat × Nat)) (aid cid : Nat)
    (adate : Day) (acc : List AuditLineItem × List AnomalyRec × Nat)
    (item : AuditLineItem) :
    acc.2.2 ≤ (analyzeStep s faults aid cid adate acc item).2.2 := by
  unfold analyzeStep
  by_cases hc : (item.audit_id == aid) = true
  · rw [if_pos hc]
    cases findMaterial s item.material_id with
    | none => exact Nat.le_refl _
    | some m => exact Nat.le_add_right _ _
  · rw [if_neg hc]

lemma analyzeFold_counter (s : DB) (faults : List (Nat × Nat)) (aid cid : Nat)
    (adate : Day) (items : List AuditLineItem) :
    ∀ (acc : List AuditLineItem × List AnomalyRec × Nat),
      acc.2.2 ≤ (items.foldl (analyzeStep s faults aid cid adate) acc).2.2 := by
  induction items with
  | nil => intro acc; exact Nat.le_refl _
  | cons x xs ih =>
    intro acc
    rw [List.foldl_cons]
    exact Nat.le_trans (analyzeStep_counter s faults aid cid adate acc x)
      (ih (analyzeStep s faults aid cid adate acc x))

/-- `analyzeLine` keeps the audit link of the line it rewrites. -/
lemma analyzeLine_audit_id (s : DB) (faults : List (Nat × Nat)) (cid : Nat)
    (adate : Day) (n : Nat) (item : AuditLineItem) :
    (analyzeLine s faults cid adate n item).1.audit_id = item.audit_id := rfl

/-- Membership in the rewritten line list of `analyze_audit`: a line either
survives untouched or is the analysis of a line of the target audit. -/
lemma analyzeStep_fold_mem_strong (s : DB) (faults : List (Nat × Nat))
    (aid cid : Nat) (adate : Day) (items : List AuditLineItem)
    (acc : List AuditLineItem × List AnomalyRec × Nat) (l1 : AuditLineItem)
    (h : l1 ∈ (items.foldl (analyzeStep s faults aid cid adate) acc).1) :
    l1 ∈ acc.1 ∨ (∃ item ∈ items, l1 = item)
      ∨ (∃ item ∈ items, item.audit_id = aid ∧
          ∃ n, l1 = (analyzeLine s faults cid adate n item).1) := by
  induction items generalizing acc with
  | nil => exact Or.inl h
  | cons x xs ih =>
    rw [List.foldl_cons] at h
    rcases ih (analyzeStep s faults aid cid adate acc x) h with
      hacc | ⟨y, hy, hly⟩ | ⟨y, hy, hyid, n, hly⟩
    · have hx : l1 ∈ acc.1 ∨ l1 = x
          ∨ (x.audit_id = aid ∧
              ∃ n, l1 = (analyzeLine s faults cid adate n x).1) := by
        unfold analyzeStep at hacc
        by_cases hc : (x.audit_id == aid) = true
        · rw [if_pos hc] at hacc
          cases hm : findMaterial s x.material_id with
          | none =>
            rw [hm] at hacc
            simp only [List.mem_append, List.mem_singleton] at hacc
            tauto
          | some m =>
            simp only [hm, List.mem_append, List.mem_singleton] at hacc
            rcases hacc with h1 | h1
            · exact Or.inl h1
            · exact Or.inr (Or.inr ⟨beq_iff_eq.1 hc, acc.2.2, h1⟩)
        · rw [if_neg hc] at hacc
          simp only [List.mem_append, List.mem_singleton] at hacc
          tauto
      rcases hx with h1 | h1 | ⟨hid, n, h1⟩
      · exact Or.inl h1
      · exact Or.inr (Or.inl ⟨x, List.mem_cons_self x xs, h1⟩)
      · exact Or.inr (Or.inr ⟨x, List.mem_cons_self x xs, hid, n, h1⟩)
    · exact Or.inr (Or.inl ⟨y, List.mem_cons_of_mem x hy, hly⟩)
    · exact Or.inr (Or.inr ⟨y, List.mem_cons_of_mem x hy, hyid, n, hly⟩)

/-- Under the primary-key constraint, audits are determined by their id. -/
lemma audit_eq_of_id_eq (l : List AuditRec)
    (hnd : l.Pairwise (fun a b => a.id ≠ b.id)) (a b : AuditRec)
    (ha : a ∈ l) (hb : b ∈ l) (hid : a.id = b.id) : a = b := by
  by_contra hne
  have hsymm : Symmetric (fun x y : AuditRec => x.id ≠ y.id) :=
    fun x y hxy => Ne.symm hxy
  exact (hnd.forall hsymm ha hb hne) hid

end MaterialAudit

namespace MaterialAudit

lemma enter_counts_inv (s : DB) (aid : Nat) (counts : List PhysicalCountEntry)
    (r : AuditForAuditor × DB) (h : enter_counts s aid counts = .ok r)
    (hinv : Inv s) : Inv r.2 := by
  unfold enter_counts at h
  cases hfa : s.audits.find? (fun a => a.id == aid) with
  | none => simp only [hfa] at h; exact Except.noConfusion h
  | some audit =>
    simp only [hfa] at h
    by_cases hst : audit.status = AuditStatus.in_progress
    · rw [if_pos hst] at h
      cases hfe : foldE (applyCountEntry aid) s counts with
      | error e => rw [hfe] at h; exact Except.noConfusion h
      | ok s1 =>
        simp only [hfe] at h
        cases hga : get_audit_for_auditor s1 aid with
        | error e =>
          simp only [hga] at h
          exact Except.noConfusion h
        | ok v =>
          simp only [hga] at h
          cases h
          obtain ⟨ha, hn, hl⟩ := countFold_shadow aid counts s s1 hfe
          exact inv_shadow s s1 ha hn hl hinv
    · rw [if_neg hst] at h
      exact Except.noConfusion h

lemma close_audit_inv (s : DB) (aid : Nat) (r : Unit × DB)
    (h : close_audit s aid = .ok r) (hinv : Inv s) : Inv r.2 := by
  unfold close_audit at h
  cases hfa : s.audits.find? (fun a => a.id == aid) with
  | none => simp only [hfa] at h; exact Except.noConfusion h
  | some audit =>
    simp only [hfa] at h
    by_cases hst : audit.status = AuditStatus.analyzed
    · rw [if_pos hst] at h
      cases h
      obtain ⟨hb, ⟨hf1, hf2⟩, hnd⟩ := hinv
      refine ⟨?_, ⟨?_, ?_⟩, ?_⟩
      · intro a1 hma1 hst1 l hml hla
        rcases mem_updateFirst _ _ _ a1 hma1 with hmem | ⟨x, hx, _, hfx⟩
        · exact hb a1 hmem hst1 l hml hla
        · subst hfx
          rcases hst1 with h1 | h1 <;> exact absurd h1 (by simp)
      · intro a1 hma1
        rcases mem_updateFirst _ _ _ a1 hma1 with hmem | ⟨x, hx, _, hfx⟩
        · exact hf1 a1 hmem
        · subst hfx
          exact hf1 x hx
      · intro l hml
        exact hf2 l hml
      · exact pairwise_updateFirst _ _ _ _ (fun a b hr => hr) (fun a b hr => hr) hnd
    · rw [if_neg hst] at h
      exact Except.noConfusion h

lemma submit_audit_inv (s : DB) (aid : Nat) (req : AuditSubmitRequest)
    (r : Unit × DB) (h : submit_audit s aid req = .ok r) (hinv : Inv s) :
    Inv r.2 := by
  unfold submit_audit at h
  cases hfa : s.audits.find? (fun a => a.id == aid) with
  | none => simp only [hfa] at h; exact Except.noConfusion h
  | some audit =>
    simp only [hfa] at h
    by_cases hst : audit.status = AuditStatus.in_progress
    · rw [if_pos hst] at h
      cases hfe : foldE (applyCountEntry aid) s req.counts with
      | error e => rw [hfe] at h; exact Except.noConfusion h
      | ok s1 =>
        rw [hfe] at h
        dsimp only at h
        split at h
        · exact Except.noConfusion h
        · cases h
          obtain ⟨ha1, hn1, hl1⟩ := countFold_shadow aid req.counts s s1 hfe
          have hinv1 : Inv s1 := inv_shadow s s1 ha1 hn1 hl1 hinv
          obtain ⟨hb, ⟨hf1, hf2⟩, hnd⟩ := hinv1
          have hndS : s1.audits.Pairwise (fun a b => a.id ≠ b.id) := hnd
          have haud_mem : audit ∈ s1.audits := by
            rw [ha1]
            exact List.mem_of_find?_eq_some hfa
          have haud_id : audit.id = aid := by
            have h0 := List.find?_some hfa
            simpa using h0
          refine ⟨?_, ⟨?_, ?_⟩, ?_⟩
          · intro a1 hma1 hst1 l hml hla
            rcases mem_updateFirst_by_id AuditRec.id aid _ s1.audits hndS a1 hma1
              with ⟨hmem, hne⟩ | ⟨x, hx, hxid, hfx⟩
            · exact hb a1 hmem hst1 l hml hla
            · have hxa : x = audit := audit_eq_of_id_eq s1.audits hndS x audit hx
                haud_mem (by rw [hxid, haud_id])
              subst hfx
              subst hxa
              exact hb x haud_mem (Or.inl hst) l hml hla
          · intro a1 hma1
            rcases mem_updateFirst _ _ _ a1 hma1 with hmem | ⟨x, hx, _, hfx⟩
            · exact hf1 a1 hmem
            · subst hfx
              exact hf1 x hx
          · intro l hml
            exact hf2 l hml
          · exact pairwise_updateFirst _ _ _ _ (fun a b hr => hr)
              (fun a b hr => hr) hndS
    · rw [if_neg hst] at h
      exact Except.noConfusion h

/-- The state built by a successful `start_audit`: the new audit is fresh, in
progress, and all its lines are blind. -/
lemma start_state_inv (s : DB) (audit : AuditRec)
    (newLines : List AuditLineItem)
    (newNext : Nat) (haid : audit.id = s.nextId)
    (hstatus : audit.status = AuditStatus.in_progress)
    (hnl : ∀ l ∈ newLines, l.audit_id = s.nextId ∧ hiddenUnset l)
    (hnn : s.nextId < newNext) (hinv : Inv s) :
    Inv { s with audits := s.audits ++ [audit],
                 audit_line_items := s.audit_line_items ++ newLines,
                 nextId := newNext } := by
  obtain ⟨hb, ⟨hf1, hf2⟩, hnd⟩ := hinv
  refine ⟨?_, ⟨?_, ?_⟩, ?_⟩
  · intro a1 hma1 hst1 l hml hla
    rcases List.mem_append.1 hma1 with hma | hma
    · rcases List.mem_append.1 hml with hm | hm
      · exact hb a1 hma hst1 l hm hla
      · have h1 : a1.id = s.nextId := hla.symm.trans (hnl l hm).1
        exact absurd (h1 ▸ hf1 a1 hma) (lt_irrefl _)
    · rw [List.mem_singleton] at hma
      subst hma
      rcases List.mem_append.1 hml with hm | hm
      · have h1 : l.audit_id = s.nextId := hla.trans haid
        exact absurd (h1 ▸ hf2 l hm) (lt_irrefl _)
      · exact (hnl l hm).2
  · intro a1 hma1
    rcases List.mem_append.1 hma1 with hma | hma
    · exact lt_trans (hf1 a1 hma) hnn
    · rw [List.mem_singleton] at hma
      subst hma
      rw [haid]
      exact hnn
  · intro l hml
    rcases List.mem_append.1 hml with hm | hm
    · exact lt_trans (hf2 l hm) hnn
    · rw [(hnl l hm).1]
      exact hnn
  · show (s.audits ++ [audit]).Pairwise (fun a b => a.id ≠ b.id)
    rw [List.pairwise_append]
    refine ⟨hnd, List.pairwise_singleton _ _, ?_⟩
    intro a ha b hb2
    rw [List.mem_singleton] at hb2
    subst hb2
    rw [haid]
    exact Nat.ne_of_lt (hf1 a ha)

lemma start_audit_inv (s : DB) (req : AuditStartRequest)
    (r : AuditForAuditor × DB) (h : start_audit s req = .ok r) (hinv : Inv s) :
    Inv r.2 := by
  unfold start_audit at h
  cases hfc : findContractor s req.contractor_id with
  | none => simp only [hfc] at h; exact Except.noConfusion h
  | some contractor =>
    simp only [hfc] at h
    cases hfa : s.audits.find? (fun a => a.contractor_id == req.contractor_id
        && decide (a.status = AuditStatus.in_progress)) with
    | some a0 => simp only [hfa] at h; exact Except.noConfusion h
    | none =>
      simp only [hfa] at h
      split at h
      · exact Except.noConfusion h
      · cases h
        refine start_state_inv s _ _ _ ?_ ?_ ?_ ?_ hinv
        · rfl
        · rfl
        · intro l hl
          rcases startFold_lines s s.nextId _ (s.nextId + 1, [], []) l hl with
            h0 | hgood
          · exact absurd h0 (List.not_mem_nil l)
          · exact hgood
        · exact Nat.lt_of_lt_of_le (Nat.lt_succ_self _)
            (startFold_counter s s.nextId _ (s.nextId + 1, [], []))

lemma analyze_audit_inv (faults : List (Nat × Nat)) (s : DB) (aid : Nat)
    (r : Unit × DB) (h : analyze_audit faults s aid = .ok r) (hinv : Inv s) :
    Inv r.2 := by
  unfold analyze_audit at h
  cases hfa : s.audits.find? (fun a => a.id == aid) with
  | none => simp only [hfa] at h; exact Except.noConfusion h
  | some audit =>
    simp only [hfa] at h
    by_cases hst : audit.status = AuditStatus.submitted
    · rw [if_pos hst] at h
      cases h
      obtain ⟨hb, ⟨hf1, hf2⟩, hnd⟩ := hinv
      have hcnt : s.nextId ≤ (s.audit_line_items.foldl
          (analyzeStep s faults aid audit.contractor_id audit.audit_date)
          ([], [], s.nextId)).2.2 :=
        analyzeFold_counter s faults aid audit.contractor_id audit.audit_date
          s.audit_line_items ([], [], s.nextId)
      refine ⟨?_, ⟨?_, ?_⟩, ?_⟩
      · intro a1 hma1 hst1 l1 hml1 hla
        rcases mem_updateFirst_by_id AuditRec.id aid _ s.audits hnd a1 hma1 with
          ⟨hmem, hne⟩ | ⟨x, hx, hxid, hfx⟩
        · rcases analyzeStep_fold_mem_strong s faults aid audit.contractor_id
              audit.audit_date s.audit_line_items ([], [], s.nextId) l1 hml1 with
            h0 | ⟨y, hy, rfl⟩ | ⟨y, hy, hyid, n, hly⟩
          · exact absurd h0 (List.not_mem_nil l1)
          · exact hb a1 hmem hst1 l1 hy hla
          · have h1 : l1.audit_id = aid := by
              rw [hly, analyzeLine_audit_id]
              exact hyid
            exact absurd (hla.symm.trans h1) hne
        · subst hfx
          rcases hst1 with h1 | h1 <;> exact absurd h1 (by simp)
      · intro a1 hma1
        rcases mem_updateFirst _ _ _ a1 hma1 with hmem | ⟨x, hx, _, hfx⟩
        · exact lt_of_lt_of_le (hf1 a1 hmem) hcnt
        · subst hfx
          exact lt_of_lt_of_le (hf1 x hx) hcnt
      · intro l1 hml1
        rcases analyzeStep_fold_mem_strong s faults aid audit.contractor_id
            audit.audit_date s.audit_line_items ([], [], s.nextId) l1 hml1 with
          h0 | ⟨y, hy, rfl⟩ | ⟨y, hy, hyid, n, hly⟩
        · exact absurd h0 (List.not_mem_nil l1)
        · exact lt_of_lt_of_le (hf2 l1 hy) hcnt
        · rw [hly, analyzeLine_audit_id]
          exact lt_of_lt_of_le (hf2 y hy) hcnt
      · exact pairwise_updateFirst _ _ _ _ (fun a b hr => hr) (fun a b hr => hr) hnd
    · rw [if_neg hst] at h
      exact Except.noConfusion h

lemma inv_applyOp (s : DB) (op : Op) (h : Inv s) : Inv (applyOp s op) := by
  cases op with
  | start req =>
    simp only [applyOp]
    cases hop : start_audit s req with
    | error e => exact h
    | ok r => exact start_audit_inv s req r hop h
  | view aid => exact h
  | enter aid counts =>
    simp only [applyOp]
    cases hop : enter_counts s aid counts with
    | error e => exact h
    | ok r => exact enter_counts_inv s aid counts r hop h
  | submitAudit aid req =>
    simp only [applyOp]
    cases hop : submit_audit s aid req with
    | error e => exact h
    | ok r => exact submit_audit_inv s aid req r hop h
  | analyze faults aid =>
    simp only [applyOp]
    cases hop : analyze_audit faults s aid with
    | error e => exact h
    | ok r => exact analyze_audit_inv faults s aid r hop h
  | accept aid =>
    simp only [applyOp]
    cases hop : accept_counts s aid with
    | error e => exact h
    | ok r =>
      obtain ⟨h1, h2, h3⟩ := accept_counts_frame s aid r hop
      exact inv_untouched s r.2 h1 h2 h3 h
  | closeAudit aid =>
    simp only [applyOp]
    cases hop : close_audit s aid with
    | error e => exact h
    | ok r => exact close_audit_inv s aid r hop h
  | submitRecon req =>
    simp only [applyOp]
    cases hop : submit_reconciliation s req with
    | error e => exact h
    | ok r =>
      obtain ⟨h1, h2, h3⟩ := submit_recon_frame s req r hop
      exact inv_untouched s r.2 h1 h2 h3 h
  | issue req =>
    simp only [applyOp]
    cases hop : create_issuance s req with
    | error e => exact h
    | ok r =>
      obtain ⟨h1, h2, h3⟩ := create_issuance_frame s req r hop
      exact inv_untouched s r.2 h1 h2 h3 h
  | completeTransfer tid =>
    simp only [applyOp]
    cases hop : complete_stock_transfer s tid with
    | error e => exact h
    | ok r =>
      obtain ⟨h1, h2, h3⟩ := complete_transfer_frame s tid r hop
      exact inv_untouched s r.2 h1 h2 h3 h

/-- The blind-audit invariant holds in every reachable state. -/
lemma inv_of_reachable (s : DB) (h : Reachable s) : Inv s := by
  induction h with
  | init s0 h1 h2 =>
    refine ⟨?_, ⟨?_, ?_⟩, ?_⟩
    · intro a hma
      rw [h1] at hma
      exact absurd hma (List.not_mem_nil a)
    · intro a hma
      rw [h1] at hma
      exact absurd hma (List.not_mem_nil a)
    · intro l hml
      rw [h2] at hml
      exact absurd hml (List.not_mem_nil l)
    · show s0.audits.Pairwise (fun a b => a.id ≠ b.id)
      rw [h1]
      exact List.Pairwise.nil
  | step s0 op h0 ih => exact inv_applyOp s0 op ih

end MaterialAudit

namespace MaterialAudit

/-- The auditor material list built by the view does not depend on the four
analysis columns. -/
lemma filterMats_erase (s : DB) (aid : Nat) (L : List AuditLineItem) :
    ((L.map eraseHidden).filter (fun l => l.audit_id == aid)).filterMap
      (fun item => (findMaterial s item.material_id).map (buildAuditorMaterial item))
    = (L.filter (fun l => l.audit_id == aid)).filterMap
      (fun item => (findMaterial s item.material_id).map
        (buildAuditorMaterial item)) := by
  induction L with
  | nil => rfl
  | cons x xs ih =>
    simp only [List.map_cons, List.filter_cons]
    have hc : ((eraseHidden x).audit_id == aid) = (x.audit_id == aid) := rfl
    rw [hc]
    by_cases h : (x.audit_id == aid) = true
    · rw [if_pos h, if_pos h]
      simp only [List.filterMap_cons]
      have hf : (findMaterial s (eraseHidden x).material_id).map
          (buildAuditorMaterial (eraseHidden x))
          = (findMaterial s x.material_id).map (buildAuditorMaterial x) := rfl
      rw [hf, ih]
    · rw [if_neg h, if_neg h]
      exact ih

/-- The blind auditor view is invariant under erasing the analysis columns:
it exposes none of them. -/
lemma get_audit_erase (s : DB) (aid : Nat) :
    get_audit_for_auditor (eraseHiddenAll s) aid = get_audit_for_auditor s aid := by
  unfold get_audit_for_auditor
  have h1 : (eraseHiddenAll s).audits = s.audits := rfl
  rw [h1]
  cases hfa : s.audits.find? (fun a => a.id == aid) with
  | none => rfl
  | some audit =>
    dsimp only
    by_cases hst : audit.status = AuditStatus.in_progress
    · simp only [if_pos hst]
      have h2 : findContractor (eraseHiddenAll s) audit.contractor_id
          = findContractor s audit.contractor_id := rfl
      have h3 : (eraseHiddenAll s).audit_line_items
          = s.audit_line_items.map eraseHidden := rfl
      have h4 : (fun item : AuditLineItem =>
            (findMaterial (eraseHiddenAll s) item.material_id).map
              (buildAuditorMaterial item))
          = (fun item : AuditLineItem =>
            (findMaterial s item.material_id).map (buildAuditorMaterial item)) := rfl
      rw [h2, h3, h4, filterMats_erase]
    · simp only [if_neg hst]

/-- Entering one count commutes with erasing the analysis columns. -/
lemma applyCountEntry_erase (aid : Nat) (s : DB) (e : PhysicalCountEntry) :
    applyCountEntry aid (eraseHiddenAll s) e
      = (applyCountEntry aid s e).map eraseHiddenAll := by
  unfold applyCountEntry
  have h3 : (eraseHiddenAll s).audit_line_items
      = s.audit_line_items.map eraseHidden := rfl
  rw [h3, List.find?_map]
  have hpc : ((fun l : AuditLineItem =>
        l.id == e.line_item_id && l.audit_id == aid) ∘ eraseHidden)
      = (fun l : AuditLineItem => l.id == e.line_item_id && l.audit_id == aid) :=
    rfl
  rw [hpc]
  cases hf : s.audit_line_items.find?
      (fun l => l.id == e.line_item_id && l.audit_id == aid) with
  | none => rfl
  | some x =>
    dsimp only
    rw [updateFirst_map_comm
        (fun l : AuditLineItem => l.id == e.line_item_id && l.audit_id == aid)
        (fun l : AuditLineItem =>
          { l with physical_count := some e.physical_count,
                   auditor_notes := e.auditor_notes })
        eraseHidden s.audit_line_items (fun a => rfl) (fun a => rfl)]
    rfl

lemma countFold_erase (aid : Nat) :
    ∀ (counts : List PhysicalCountEntry) (s : DB),
      foldE (applyCountEntry aid) (eraseHiddenAll s) counts
        = (foldE (applyCountEntry aid) s counts).map eraseHiddenAll := by
  intro counts
  induction counts with
  | nil => intro s; rfl
  | cons c cs ih =>
    intro s
    unfold foldE
    rw [applyCountEntry_erase]
    cases applyCountEntry aid s c with
    | error e => rfl
    | ok s2 => exact ih s2

/-- The state and view returned by `enter_counts` carry no information from
the four analysis columns. -/
lemma enter_counts_erase (s : DB) (aid : Nat) (counts : List PhysicalCountEntry) :
    (enter_counts (eraseHiddenAll s) aid counts).map Prod.fst
      = (enter_counts s aid counts).map Prod.fst := by
  unfold enter_counts
  have h1 : (eraseHiddenAll s).audits = s.audits := rfl
  rw [h1]
  cases hfa : s.audits.find? (fun a => a.id == aid) with
  | none => rfl
  | some audit =>
    dsimp only
    by_cases hst : audit.status = AuditStatus.in_progress
    · simp only [if_pos hst]
      rw [countFold_erase]
      cases foldE (applyCountEntry aid) s counts with
      | error e => rfl
      | ok s1 =>
        dsimp only [Except.map]
        rw [get_audit_erase]
        cases get_audit_for_auditor s1 aid with
        | error e => rfl
        | ok v => rfl
    · simp only [if_neg hst]

end MaterialAudit

namespace MaterialAudit

/-- The view returned by `start_audit` carries no information from the four
analysis columns of previously stored lines. -/
lemma start_audit_erase (s : DB) (req : AuditStartRequest) :
    (start_audit (eraseHiddenAll s) req).map Prod.fst
      = (start_audit s req).map Prod.fst := by
  unfold start_audit
  have h1 : findContractor (eraseHiddenAll s) req.contractor_id
      = findContractor s req.contractor_id := rfl
  rw [h1]
  cases findContractor s req.contractor_id with
  | none => rfl
  | some contractor =>
    dsimp only
    have h2 : (eraseHiddenAll s).audits = s.audits := rfl
    rw [h2]
    cases s.audits.find? (fun a => a.contractor_id == req.contractor_id
        && decide (a.status = AuditStatus.in_progress)) with
    | some a0 => rfl
    | none =>
      dsimp only
      have h3 : (eraseHiddenAll s).contractor_inventory = s.contractor_inventory :=
        rfl
      have h4 : (eraseHiddenAll s).nextId = s.nextId := rfl
      have h5 : (eraseHiddenAll s).today = s.today := rfl
      have h6 : startLineStep (eraseHiddenAll s) = startLineStep s := rfl
      rw [h3, h4, h5, h6]
      by_cases hemp : (s.contractor_inventory.filter
          (fun r => r.contractor_id == req.contractor_id
            && decide (0 < r.quantity))).isEmpty
      · rw [if_pos hemp, if_pos hemp]
      · rw [if_neg hemp, if_neg hemp]
        rfl

end MaterialAudit

namespace MaterialAudit

/-- **C1** (invariants; audits.py, schemas/audit.py): in every reachable
state, every stored line of an audit still in progress or submitted — i.e.
before `analyze` runs — has its expected-quantity, variance,
variance-percentage and threshold columns unset, regardless of how many
counts have been entered; and the three auditor-facing operations
(`start_audit`, `get_audit_for_auditor`, `enter_counts`) return exactly the
same result when those four columns are erased from the whole store, so no
line item they return carries any of those fields (the returned
`AuditMaterialForAuditor` rows expose only line id, material identity and
unit). -/
theorem blind_audit_invisibility :
    (∀ s : DB, Reachable s → ∀ a ∈ s.audits,
        a.status = AuditStatus.in_progress ∨ a.status = AuditStatus.submitted →
        ∀ l ∈ s.audit_line_items, l.audit_id = a.id →
          l.expected_quantity = none ∧ l.variance = none ∧
            l.variance_percentage = none ∧ l.threshold_used = none)
      ∧ (∀ (s : DB) (req : AuditStartRequest),
          (start_audit (eraseHiddenAll s) req).map Prod.fst
            = (start_audit s req).map Prod.fst)
      ∧ (∀ (s : DB) (aid : Nat),
          get_audit_for_auditor (eraseHiddenAll s) aid
            = get_audit_for_auditor s aid)
      ∧ (∀ (s : DB) (aid : Nat) (counts : List PhysicalCountEntry),
          (enter_counts (eraseHiddenAll s) aid counts).map Prod.fst
            = (enter_counts s aid counts).map Prod.fst) := by
  refine ⟨?_, start_audit_erase, get_audit_erase, enter_counts_erase⟩
  intro s hs a hma hst l hml hla
  exact (inv_of_reachable s hs).1 a hma hst l hml hla

/-- A fresh store holding one contractor with one positive material balance
and no audit data. -/
def c1Base : DB :=
  { contractors := [⟨1, "Acme"⟩]
    materials := [⟨1, "STL", "Steel", "kg"⟩]
    warehouses := []
    warehouse_inventory := []
    fg_inventory := []
    contractor_inventory := [⟨1, 1, 5⟩]
    conversions := []
    thresholds := []
    check_lines := []
    issuances := []
    consumptions := []
    rejections := []
    audits := []
    audit_line_items := []
    anomalies := []
    adjustments := []
    reconciliations := []
    reconciliation_lines := []
    transfers := []
    today := scenDay
    nextId := 1 }

def c1Req : AuditStartRequest := ⟨1, "Aud", "SCHEDULED", none⟩

def c1DB : DB := applyOp c1Base (.start c1Req)

def c1Audit : AuditRec :=
  ⟨1, 1, 1, scenDay, "Aud", "SCHEDULED", .in_progress, none⟩

def c1Line : AuditLineItem :=
  ⟨2, 1, 1, none, "kg", none, none, none, none, none, none, none⟩

/-- Closed witness for C1: one start step from a fresh store reaches a state
whose in-progress audit line has all four analysis columns unset. -/
theorem blind_audit_invisibility_witness :
    c1Line.expected_quantity = none ∧ c1Line.variance = none ∧
      c1Line.variance_percentage = none ∧ c1Line.threshold_used = none :=
  blind_audit_invisibility.1 c1DB
    (Reachable.step c1Base (Op.start c1Req) (Reachable.init c1Base rfl rfl))
    c1Audit (by decide) (Or.inl rfl) c1Line (by decide) rfl

end MaterialAudit
